import Mathlib

/-! # alink_man_gs: the ground-station control client, embedded in Lean

A shallow embedding of `alink_man_gs.c`.  The program talks to its surroundings
only through library calls; each of them is represented by

* an entry of `Env`, giving the outcome the surroundings produce for the k-th
  call of that kind, and
* an `Event` appended to the `trace` of the `World`, recording that the call
  was made.

Files are held in `World.fs`.  Byte buffers are `List Char`; the C string in a
buffer is `cstr` of it.  C `int` values are `Int`; conversions that store into
an `int` reduce with `wrap32`, after the saturation of the 64-bit `long` they
are read as (`strtol_clamp`).  `printf` formats are rendered by `format_int`
for ordinary characters, `%%` and one `%d`; a function that would render any
other format returns `none`.  Loops over a file or a string carry a bound on
their rounds equal to the length of their input, which they never reach
(`update_loop_fuel`, `get_nics_scan_fuel`, `strtok_loop_fuel`).

Diagnostics guarded by `if (verbose)` only print and never steer the control
flow; the embedding is taken at the default `verbose = 0` and starts `main`
after option parsing, at the usage check.  Write errors on an open file are
not examined by the program and are not represented.

The file has three parts: the definitions (C library fragments, the
surroundings, the program, readings of a trace, the wording of the
specification, concrete surroundings), the lemmas, and one section per claim
C1 to C10.
-/

set_option autoImplicit false

namespace AlinkManGs

/-! ## Fragments of the C library -/

/-- Contents of a C string, without its terminator. -/
abbrev Str := List Char

/-- The terminator byte. -/
def NUL : Char := Char.ofNat 0

/-- The single quote character. -/
def QUOTE : Char := Char.ofNat 39

/-- The C string held by a byte buffer: the bytes before the first NUL. -/
def cstr (b : List Char) : Str := b.takeWhile (fun c => c != NUL)

/-- Result of `snprintf(buf, size, ...)` when the full rendering is `s`: at most
`size - 1` characters are stored. -/
def snprintf (size : Nat) (s : Str) : Str := s.take (size - 1)

/-- Storing a conversion result into a 32-bit `int`. -/
def wrap32 (v : Int) : Int := (v + 2147483648) % 4294967296 - 2147483648

/-- The predicate `isspace` of the C locale. -/
def isspace (c : Char) : Bool :=
  c == ' ' || c == '\t' || c == '\n' || c == Char.ofNat 11 || c == Char.ofNat 12 || c == '\r'

/-- The predicate `isdigit`. -/
def isdigit (c : Char) : Bool := decide (48 ≤ c.toNat) && decide (c.toNat ≤ 57)

/-- Whether `strncmp(a, b, n) == 0` for C strings `a`, `b`. -/
def strncmp_eq (a b : Str) (n : Nat) : Bool := a.take n == b.take n

/-- Whether `strstr(hay, needle) != NULL`. -/
def strstr : Str → Str → Bool
  | [], needle => needle.isEmpty
  | c :: hay, needle => needle.isPrefixOf (c :: hay) || strstr hay needle

/-- The effect of `s[strcspn(s, "\r\n")] = 0`. -/
def cut_eol (s : Str) : Str := s.takeWhile (fun c => c != '\r' && c != '\n')

/-- One `fgets` worth of bytes: at most `k` of them, ending after the first
newline.  Returns the bytes read and the bytes left in the stream. -/
def fgets_take : Nat → List Char → List Char × List Char
  | 0, s => ([], s)
  | _ + 1, [] => ([], [])
  | k + 1, c :: s =>
    if c = '\n' then ([c], s)
    else ((c :: (fgets_take k s).1), (fgets_take k s).2)

/-- The call `fgets(buf, size, fp)` on a stream with `s` left: `none` is the
NULL returned at end of file. -/
def fgets (size : Nat) (s : List Char) : Option (List Char × List Char) :=
  if s = [] then none else some (fgets_take (size - 1) s)

/-- The text `%d` prints for an `int`. -/
def fmt_d (v : Int) : Str :=
  if v < 0 then '-' :: Nat.toDigits 10 v.natAbs else Nat.toDigits 10 v.natAbs

/-- The rendering `printf` gives a format that has no argument left: ordinary
characters and `%%`.  Any other directive has no defined result (`none`). -/
def format_lit : Str → Option Str
  | [] => some []
  | c :: rest =>
    if c = '%' then
      match rest with
      | [] => none
      | d :: rest2 => if d = '%' then (format_lit rest2).map (fun r => '%' :: r) else none
    else (format_lit rest).map (fun r => c :: r)

/-- The rendering `printf` gives a format with one `int` argument, for formats
made of ordinary characters, `%%` and one `%d`.  Any other directive is outside
this fragment (`none`). -/
def format_int : Str → Int → Option Str
  | [], _ => some []
  | c :: rest, v =>
    if c = '%' then
      match rest with
      | [] => none
      | d :: rest2 =>
        if d = '%' then (format_int rest2 v).map (fun r => '%' :: r)
        else if d = 'd' then (format_lit rest2).map (fun r => fmt_d v ++ r)
        else none
    else (format_int rest v).map (fun r => c :: r)

/-- White space skipped by a conversion or by white space in a `scanf` format. -/
def skip_ws (s : Str) : Str := s.dropWhile isspace

/-- Value of a run of decimal digits. -/
def digits_val (ds : Str) : Nat := ds.foldl (fun a c => 10 * a + (c.toNat - 48)) 0

/-- An optional sign in front of a number: whether it is `-`, and the rest. -/
def scan_sign : Str → Bool × Str
  | [] => (false, [])
  | c :: t => if c = '-' then (true, t) else if c = '+' then (false, t) else (false, c :: t)

/-- The text the conversion `%d` of `scanf` consumes (and `atoi` parses): white
space, an optional sign, a non-empty run of digits.  Returns the number the text
spells, before it is stored, and the input left; `none` when there is no
number. -/
def scan_int (s : Str) : Option (Int × Str) :=
  let body := (scan_sign (skip_ws s)).2
  let ds := body.takeWhile isdigit
  if ds = [] then none
  else some (if (scan_sign (skip_ws s)).1 then - (digits_val ds : Int) else (digits_val ds : Int),
             body.dropWhile isdigit)

/-- The largest `long` (64 bits). -/
def LONG_MAX : Int := 9223372036854775807

/-- The smallest `long` (64 bits). -/
def LONG_MIN : Int := -9223372036854775808

/-- What `strtol` returns for a number whose digits spell `v`: out of the range
of `long` it is `LONG_MAX` or `LONG_MIN`.  The conversion `%d` and `atoi` both
read their number through `strtol`. -/
def strtol_clamp (v : Int) : Int :=
  if LONG_MAX < v then LONG_MAX else if v < LONG_MIN then LONG_MIN else v

/-- The call `atoi(s)`: the `long` that `strtol` reads, cut to an `int`. -/
def atoi (s : Str) : Int :=
  match scan_int s with
  | some (v, _) => wrap32 (strtol_clamp v)
  | none => 0

/-- Matching the ordinary characters `lit` of a `scanf` format against the
input: the input left, or `none` on a mismatch. -/
def match_lit : Str → Str → Option Str
  | [], s => some s
  | _ :: _, [] => none
  | a :: lit, c :: s => if a = c then match_lit lit s else none

/-- The call `sscanf(command, "change_channel %d", &ch)`: `some ch` when it
returns 1 (the value stored in `ch`), `none` otherwise.  The number is read as a
`long`, which saturates, and then cut to the `int` that `ch` is. -/
def sscanf_change_channel (command : Str) : Option Int :=
  match match_lit "change_channel".toList command with
  | none => none
  | some rest => (scan_int (skip_ws rest)).map (fun r => wrap32 (strtol_clamp r.1))

/-- The call
`sscanf(command, "set_video_mode %31s %d %d '%127[^']'", size, &fps, &exposure, crop)`:
the number of fields assigned, or -1 (EOF) when the input ends before the first
conversion. -/
def sscanf_set_video_mode (command : Str) : Int :=
  match match_lit "set_video_mode".toList command with
  | none => if command.length < 14 ∧ command.isPrefixOf "set_video_mode".toList then -1 else 0
  | some r0 =>
    let r1 := skip_ws r0
    if r1 = [] then -1 else
    -- %31s
    let size := (r1.takeWhile (fun c => !isspace c)).take 31
    let r2 := r1.drop size.length
    -- %d
    match scan_int (skip_ws r2) with
    | none => 1
    | some (_, r3) =>
      -- %d
      match scan_int (skip_ws r3) with
      | none => 2
      | some (_, r4) =>
        -- the opening quote
        match skip_ws r4 with
        | [] => 3
        | q :: r5 =>
          if q = QUOTE then
            -- %127[^']
            if ((r5.takeWhile (fun c => c != QUOTE)).take 127) = [] then 3 else 4
          else 3

/-- The tokens that `strtok(s, " ")` followed by `strtok(NULL, " ")` hand out:
`none` when no token is left, else the token and the text after its delimiter. -/
def strtok (s : Str) : Option (Str × Str) :=
  if s.dropWhile (fun c => c == ' ') = [] then none
  else some ((s.dropWhile (fun c => c == ' ')).takeWhile (fun c => c != ' '),
             ((s.dropWhile (fun c => c == ' ')).dropWhile (fun c => c != ' ')).drop 1)

/-- The loop `tok = strtok(copy, " "); while (tok) { arr[idx++] = strdup(tok);
tok = strtok(NULL, " "); }` of `get_nics`, at most `fuel` rounds. -/
def strtok_loop : Nat → Str → List Str
  | 0, _ => []
  | fuel + 1, s =>
    match strtok s with
    | none => []
    | some (tok, rest) => tok :: strtok_loop fuel rest

/-! ## The surroundings of the program -/

/-- `#define MAX_CONNECT_TRIES 3` -/
def MAX_CONNECT_TRIES : Nat := 3

/-- `#define BUF_SIZE 1024` -/
def BUF_SIZE : Nat := 1024

/-- What the program does to its surroundings, in the order it does it.
`call_send`, `call_update_file` and `call_local_change_channel` mark the entry
into the function of that name. -/
inductive Event where
  | call_send (server_ip command : Str)
  | socket
  | connect
  | close
  | sleep (secs : Nat)
  | send (command : Str)
  | read
  | system (cmd : Str)
  | popen (cmd : Str)
  | stdout (s : Str)
  | stderr (s : Str)
  | perror (s : Str)
  | call_update_file (filepath key format : Str) (channel : Int)
  | call_local_change_channel (channel : Int)
  | help
  deriving DecidableEq, Repr

/-- Results of the system calls made by one `connect_with_timeout`. -/
structure ConnectSyscalls where
  getfl : Int
  setfl : Int
  connect : Int
  einprogress : Bool
  select : Int
  getsockopt : Int
  so_error : Int
  restore : Int

/-- How the surroundings answer: `k` counts the earlier calls of the same kind.
`inet_pton` is whether the address converts; `recv k` are the bytes the k-th
`read` finds (none for a result `<= 0`); `system_ret` is the status `system`
returns; `popen_out` the output of a command opened with `popen` (`none` when
`popen` fails); `readable`, `can_create` and `rename_ok` tell whether `fopen`
for reading, `fopen` for writing and `rename` succeed. -/
structure Env where
  inet_pton : Str → Bool
  socket_ok : Nat → Bool
  connect_sys : Nat → ConnectSyscalls
  send_ok : Nat → Bool
  recv : Nat → List Char
  system_ret : Nat → Str → Int
  popen_out : Str → Option (List Char)
  readable : Str → Bool
  can_create : Str → Bool
  rename_ok : Str → Str → Bool

/-- The state the program acts on: the files, the calls made so far and how
many calls of each kind there were. -/
structure World where
  fs : Str → Option (List Char)
  trace : List Event
  n_socket : Nat
  n_connect : Nat
  n_send : Nat
  n_read : Nat
  n_system : Nat

/-- Append one event to the trace. -/
def World.log (w : World) (e : Event) : World := { w with trace := w.trace ++ [e] }

/-- Replace the files. -/
def World.with_fs (w : World) (fs : Str → Option (List Char)) : World := { w with fs := fs }

/-- The file system with `path` set to `c` (`none` removes it). -/
def fs_set (fs : Str → Option (List Char)) (path : Str) (c : Option (List Char)) :
    Str → Option (List Char) :=
  fun p => if p = path then c else fs p

/-- The file system after `rename(src, dst)` succeeded. -/
def fs_rename (fs : Str → Option (List Char)) (src dst : Str) : Str → Option (List Char) :=
  if src = dst then fs else fs_set (fs_set fs dst (fs src)) src none

/-! ## The program -/

/-- Function `connect_with_timeout` (lines 109-158): 0 on success, -1 on failure. -/
def connect_with_timeout (o : ConnectSyscalls) : Int :=
  if o.getfl < 0 then -1
  else if o.setfl < 0 then -1
  else if o.connect < 0 ∧ o.einprogress = true then
    if o.select ≤ 0 then -1
    else if o.getsockopt < 0 then -1
    else if o.so_error ≠ 0 then -1
    else if o.restore < 0 then -1 else 0
  else if o.connect < 0 then -1
  else if o.restore < 0 then -1 else 0

/-- The loop `for (attempt = 1; attempt <= MAX_CONNECT_TRIES; ++attempt)` of
`send_command_get_response` (lines 178-210), started at `attempt` with
`fuel = MAX_CONNECT_TRIES + 1 - attempt` rounds to go.  The flag tells whether
the loop was left towards the `send` (`true`) or the function returned -1. -/
def connect_loop (env : Env) : Nat → Nat → World → World × Bool
  | 0, _, w => (w, true)
  | fuel + 1, attempt, w =>
    if env.socket_ok w.n_socket = false then
      (({ w with n_socket := w.n_socket + 1 }.log Event.socket).log
        (Event.perror "Socket creation error".toList), false)
    else if connect_with_timeout (env.connect_sys w.n_connect) = 0 then
      (({ w with n_socket := w.n_socket + 1, n_connect := w.n_connect + 1 }.log
        Event.socket).log Event.connect, true)
    else if attempt = MAX_CONNECT_TRIES then
      ((((({ w with n_socket := w.n_socket + 1, n_connect := w.n_connect + 1 }.log
        Event.socket).log Event.connect).log
        (Event.perror "[DEBUG] connect() failed".toList)).log Event.close).log
        (Event.stderr "Failed to connect after 3 attempts\n".toList), false)
    else
      connect_loop env fuel (attempt + 1)
        ((((({ w with n_socket := w.n_socket + 1, n_connect := w.n_connect + 1 }.log
          Event.socket).log Event.connect).log
          (Event.perror "[DEBUG] connect() failed".toList)).log Event.close).log
          (Event.sleep 1))

/-- Function `send_command_get_response` (lines 160-229).  `response` is the
C string in the caller's buffer on entry; the result is the state, the C string
in the buffer on return, and the return value. -/
def send_command_get_response (env : Env) (w : World) (server_ip command response : Str)
    (resp_size : Nat) : World × Str × Int :=
  if env.inet_pton server_ip = false then
    (((w.log (Event.call_send server_ip command)).log (Event.perror "Invalid address".toList)),
      response, -1)
  else
    match connect_loop env MAX_CONNECT_TRIES 1 (w.log (Event.call_send server_ip command)) with
    | (w1, false) => (w1, response, -1)
    | (w1, true) =>
      if env.send_ok w1.n_send = false then
        (((({ w1 with n_send := w1.n_send + 1 }.log (Event.send command)).log
          (Event.perror "Send failed".toList)).log Event.close), response, -1)
      else
        ((({ w1 with n_send := w1.n_send + 1, n_read := w1.n_read + 1 }.log
            (Event.send command)).log Event.read).log Event.close,
          (if (env.recv w1.n_read).take (resp_size - 1) = [] then
            snprintf resp_size "No immediate rejection.  Moving on...".toList
           else cstr ((env.recv w1.n_read).take (resp_size - 1))),
          0)

/-- The loop `while (fgets(line, sizeof(line), fp))` of `get_nics` (lines
241-247): the content of `nics_line` after it. -/
def get_nics_scan : Nat → List Char → Str
  | 0, _ => []
  | fuel + 1, inp =>
    match fgets 256 inp with
    | none => []
    | some (chunk, rest) =>
      if strncmp_eq (cstr chunk) "WFB_NICS=".toList 9 then
        cut_eol (((cstr chunk).dropWhile (fun c => c != '=')).drop 1)
      else get_nics_scan fuel rest

/-- Lines 251-255 of `get_nics`: one layer of double quotes is taken off. -/
def strip_quotes (s : Str) : Str :=
  if 2 ≤ s.length ∧ s.head? = some '"' ∧ s.getLast? = some '"' then
    (s.drop 1).take (s.length - 2)
  else s

/-- Function `get_nics` (lines 233-273): `none` is the NULL returned (with
count 0) when the file cannot be opened, `some arr` the array returned, whose
length is the count. -/
def get_nics (env : Env) (w : World) : Option (List Str) :=
  if env.readable "/etc/default/wifibroadcast".toList = false then none
  else
    match w.fs "/etc/default/wifibroadcast".toList with
    | none => none
    | some content =>
      some (strtok_loop (strip_quotes (get_nics_scan content.length content)).length
        (strip_quotes (get_nics_scan content.length content)))

/-- The call `system(cmd)`: the state after it and the status returned. -/
def system (env : Env) (w : World) (cmd : Str) : World × Int :=
  ({ w with n_system := w.n_system + 1 }.log (Event.system cmd), env.system_ret w.n_system cmd)

/-- The command line 285 builds for one interface. -/
def iw_set_channel (nic : Str) (channel : Int) : Str :=
  snprintf 128 ("iw dev ".toList ++ nic ++ " set channel ".toList ++ fmt_d channel)

/-- Function `local_change_channel` (lines 276-291). -/
def local_change_channel (env : Env) (w : World) (channel : Int) : World :=
  match get_nics env w with
  | none => w.log (Event.call_local_change_channel channel)
  | some nics =>
    nics.foldl (fun w1 nic => (system env w1 (iw_set_channel nic channel)).1)
      (w.log (Event.call_local_change_channel channel))

/-- The loop `while (fgets(line, sizeof(line), fp) != NULL)` of `update_file`
(lines 312-321): what has been written to the temporary file when it ends,
having written `out` before.  `none` when the format is outside `format_int`. -/
def update_loop (key format : Str) (channel : Int) : Nat → List Char → List Char →
    Option (List Char)
  | 0, _, out => some out
  | fuel + 1, inp, out =>
    match fgets 1024 inp with
    | none => some out
    | some (chunk, rest) =>
      if strstr (cstr chunk) key then
        match format_int format channel with
        | none => none
        | some r => update_loop key format channel fuel rest (out ++ snprintf 1024 r ++ ['\n'])
      else update_loop key format channel fuel rest (out ++ cstr chunk)

/-- Function `update_file` (lines 295-332): the state after it and the value
returned (1 on success, 0 on failure); `none` when the format is outside
`format_int`. -/
def update_file (env : Env) (w : World) (filepath key format : Str) (channel : Int) :
    Option (World × Int) :=
  if env.readable filepath = false ∨ w.fs filepath = none then
    some ((w.log (Event.call_update_file filepath key format channel)).log
      (Event.stderr ("Cannot open file: ".toList ++ filepath ++ "\n".toList)), 0)
  else if env.can_create (snprintf 256 (filepath ++ ".tmp".toList)) = false then
    some ((w.log (Event.call_update_file filepath key format channel)).log
      (Event.stderr ("Cannot open temporary file: ".toList ++
        snprintf 256 (filepath ++ ".tmp".toList) ++ " for file ".toList ++ filepath ++
        "\n".toList)), 0)
  else
    match update_loop key format channel
        ((fs_set w.fs (snprintf 256 (filepath ++ ".tmp".toList)) (some []) filepath).getD []).length
        ((fs_set w.fs (snprintf 256 (filepath ++ ".tmp".toList)) (some []) filepath).getD [])
        [] with
    | none => none
    | some out =>
      if env.rename_ok (snprintf 256 (filepath ++ ".tmp".toList)) filepath = false then
        some (((w.with_fs (fs_set w.fs (snprintf 256 (filepath ++ ".tmp".toList)) (some out))).log
          (Event.call_update_file filepath key format channel)).log
          (Event.perror "Error renaming temporary file".toList), 0)
      else
        some ((w.with_fs (fs_rename
            (fs_set w.fs (snprintf 256 (filepath ++ ".tmp".toList)) (some out))
            (snprintf 256 (filepath ++ ".tmp".toList)) filepath)).log
          (Event.call_update_file filepath key format channel), 1)

/-- The final report of `save_new_channel_to_files` (lines 351-357). -/
def save_report (w : World) (success1 success2 : Int) : World :=
  if success1 = 0 ∧ success2 = 0 then
    w.log (Event.stderr
      "Warning: Could not write to either file.  Channel change will not persist after reboot!\n".toList)
  else if success1 ≠ 0 then
    w.log (Event.stderr "Succesfully wrote new channel to /etc/wifibroadcast.cfg\n".toList)
  else if success2 ≠ 0 then
    w.log (Event.stderr "Succesfully wrote new channel to /config/gs.conf\n".toList)
  else w

/-- Function `save_new_channel_to_files` (lines 334-358). -/
def save_new_channel_to_files (env : Env) (w : World) (channel : Int) : Option World :=
  match update_file env w "/etc/wifibroadcast.cfg".toList "wifi_channel".toList
      "wifi_channel = '%d'".toList channel with
  | none => none
  | some (w1, success1) =>
    if w1.fs "/config/gs.conf".toList = none then
      some (save_report
        (w1.log (Event.stderr "File /config/gs.conf does not exist, skipping update.\n".toList))
        success1 0)
    else
      match update_file env w1 "/config/gs.conf".toList "wifi_channel".toList
          "wifi_channel = '%d'".toList channel with
      | none => none
      | some (w2, success2) => some (save_report w2 success1 success2)

/-- The command line 412 builds for the liveness probe. -/
def ping_cmd (server_ip : Str) : Str :=
  snprintf 64 ("ping -c1 -W1 ".toList ++ server_ip ++ " >/dev/null".toList)

/-- The loop `for (int i = 0; i < 5; i++)` of `main` (lines 410-415) with
`fuel = 5 - i` rounds to go: the state after it and the value of `ok`. -/
def ping_loop (env : Env) (server_ip : Str) : Nat → World → World × Bool
  | 0, w => (w, false)
  | fuel + 1, w =>
    if (system env w (ping_cmd server_ip)).2 = 0 then ((system env w (ping_cmd server_ip)).1, true)
    else ping_loop env server_ip fuel ((system env w (ping_cmd server_ip)).1.log (Event.sleep 1))

/-- Lines 386-399 of `main`: the text `orig` holds after the query of the first
interface, and the state after the query. -/
def capture_orig (env : Env) (w : World) : World × Str :=
  match get_nics env w with
  | none => (w, "unknown".toList)
  | some [] => (w, "unknown".toList)
  | some (nic0 :: _) =>
    (w.log (Event.popen (snprintf 128
        ("iw dev ".toList ++ nic0 ++ " info | grep channel | awk '{print $2}'".toList))),
      match env.popen_out (snprintf 128
        ("iw dev ".toList ++ nic0 ++ " info | grep channel | awk '{print $2}'".toList)) with
      | none => "unknown".toList
      | some outp =>
        match fgets 16 outp with
        | none => "unknown".toList
        | some (chunk, _) => cut_eol (cstr chunk))

/-- The branch `change_channel` of `main` once the channel is parsed (lines
385-425). -/
def change_channel (env : Env) (w : World) (server_ip command response : Str) (ch : Int) :
    Option (World × Int) :=
  let wq := capture_orig env w
  let r := send_command_get_response env wq.1 server_ip command response BUF_SIZE
  let w2 := (r.1.log (Event.stdout (r.2.1 ++ "\n".toList))).log (Event.sleep 1)
  if strstr r.2.1 "Failed".toList then some (w2, 0)
  else
    let p := ping_loop env server_ip 5 (local_change_channel env w2 ch)
    if p.2 then
      let c := send_command_get_response env p.1 server_ip "confirm_channel_change".toList
        r.2.1 BUF_SIZE
      (save_new_channel_to_files env (c.1.log (Event.stdout (c.2.1 ++ "\n".toList))) ch).map
        (fun w9 => (w9, 0))
    else
      some (local_change_channel env
        (p.1.log (Event.stdout ("No contact; reverting to channel ".toList ++ wq.2 ++ "\n".toList)))
        (atoi wq.2), 0)

/-- The pass-through used by three branches of `main`: the command is sent and
the response printed when the call returned 0. -/
def forward (env : Env) (w : World) (server_ip command response : Str) : World :=
  let r := send_command_get_response env w server_ip command response BUF_SIZE
  if r.2.2 = 0 then r.1.log (Event.stdout (r.2.1 ++ "\n".toList)) else r.1

/-- Function `main` from the usage check on (lines 372-456).  `args` are the
arguments left after the options (`argv[optind]` onwards), `response` the
C string the uninitialised buffer `response` happens to hold.  The result is the
final state and the exit status. -/
def main (env : Env) (w : World) (args : List Str) (response : Str) : Option (World × Int) :=
  match args with
  | server_ip :: command :: _ =>
    if strncmp_eq command "change_channel".toList 14 then
      match sscanf_change_channel command with
      | some ch => change_channel env w server_ip command response ch
      | none => some (w.log (Event.stderr "Invalid change_channel format\n".toList), 0)
    else if strncmp_eq command "set_video_mode".toList 14 then
      if sscanf_set_video_mode command = 4 then
        some (forward env w server_ip command response, 0)
      else some (w.log (Event.stderr "Invalid set_video_mode format\n".toList), 0)
    else if strncmp_eq command "stop_msposd".toList 11 ∨
        strncmp_eq command "start_msposd".toList 12 then
      some (forward env w server_ip command response, 0)
    else some (forward env w server_ip command response, 0)
  | _ => some (w.log Event.help, 1)

/-! ## Reading a trace -/

/-- The command lines handed to `system`, in order. -/
def system_calls (t : List Event) : List Str :=
  t.filterMap (fun e => match e with | Event.system c => some c | _ => none)

/-- The commands `send_command_get_response` was called with, in order. -/
def sent_commands (t : List Event) : List Str :=
  t.filterMap (fun e => match e with | Event.call_send _ c => some c | _ => none)

/-- The commands handed to `send` on a connection, in order. -/
def wire_sends (t : List Event) : List Str :=
  t.filterMap (fun e => match e with | Event.send c => some c | _ => none)

/-- The file and channel of each call of `update_file`, in order. -/
def update_calls (t : List Event) : List (Str × Int) :=
  t.filterMap (fun e => match e with | Event.call_update_file p _ _ ch => some (p, ch) | _ => none)

/-- The channel of each call of `local_change_channel`, in order. -/
def local_calls (t : List Event) : List Int :=
  t.filterMap (fun e => match e with | Event.call_local_change_channel ch => some ch | _ => none)

/-- The texts printed on standard output, in order. -/
def printed (t : List Event) : List Str :=
  t.filterMap (fun e => match e with | Event.stdout s => some s | _ => none)

/-- The events inside one `send_command_get_response`, its entry mark apart. -/
def Event.is_net : Event → Bool
  | Event.socket => true
  | Event.connect => true
  | Event.close => true
  | Event.sleep _ => true
  | Event.send _ => true
  | Event.read => true
  | Event.perror _ => true
  | Event.stderr _ => true
  | _ => false

/-- Whether the event is a `sleep`. -/
def Event.is_sleep : Event → Bool
  | Event.sleep _ => true
  | _ => false

/-- The interfaces `local_change_channel` works on. -/
def nics_of (env : Env) (w : World) : List Str := (get_nics env w).getD []

/-! ### The command `set_video_mode` -/

/-- Follows the wording of the specification: a field is an integer when it is
an optional sign followed by one or more digits. -/
def spec_is_integer (s : Str) : Bool :=
  (scan_sign s).2 != [] && (scan_sign s).2.all isdigit

/-- Follows the wording of the specification: a field is single-quoted free
text when it opens and closes with a quote and has one or more characters
other than a quote in between. -/
def spec_is_quoted (s : Str) : Bool :=
  match s with
  | [] => false
  | q :: t => q == QUOTE && t.getLast? == some QUOTE && decide (2 ≤ t.length) &&
      t.dropLast.all (fun c => c != QUOTE)

/-- Follows the wording of the specification: the line is `set_video_mode`
followed by exactly four fields, separated by white space: a token of at most 31
characters without white space, two integers, and a single-quoted non-empty
free text that may contain spaces. -/
def spec_video_mode (command : Str) : Bool :=
  match match_lit "set_video_mode".toList command with
  | none => false
  | some r0 =>
    decide (1 ≤ ((skip_ws r0).takeWhile (fun c => !isspace c)).length) &&
    decide (((skip_ws r0).takeWhile (fun c => !isspace c)).length ≤ 31) &&
    spec_is_integer
      ((skip_ws ((skip_ws r0).dropWhile (fun c => !isspace c))).takeWhile (fun c => !isspace c)) &&
    spec_is_integer
      ((skip_ws ((skip_ws ((skip_ws r0).dropWhile (fun c => !isspace c))).dropWhile
        (fun c => !isspace c))).takeWhile (fun c => !isspace c)) &&
    spec_is_quoted
      (skip_ws ((skip_ws ((skip_ws ((skip_ws r0).dropWhile (fun c => !isspace c))).dropWhile
        (fun c => !isspace c))).dropWhile (fun c => !isspace c)))

/-! ### Text files, line by line -/

/-- The first line of a text with its newline (the whole text when it has no
newline), and what follows it. -/
def line_split : List Char → List Char × List Char
  | [] => ([], [])
  | c :: s => if c = '\n' then ([c], s) else (c :: (line_split s).1, (line_split s).2)

/-- Follows the wording of the specification: the lines of a text in order,
each with the newline that ends it; the last line may lack one. -/
def spec_lines : List Char → List (List Char)
  | [] => []
  | c :: s =>
    if c = '\n' then [c] :: spec_lines s
    else
      match spec_lines s with
      | [] => [[c]]
      | l :: ls => (c :: l) :: ls

/-- Follows the wording of the specification: every line that does not contain
`key` is copied, every line that contains it is replaced by `repl` and a
newline. -/
def spec_update (key repl : Str) (content : List Char) : List Char :=
  ((spec_lines content).map (fun l => if key <:+: l then repl ++ ['\n'] else l)).flatten

/-- What the loop of `update_file` writes for one buffer read by `fgets`, when
a replaced line is `repl`. -/
def rewrite_chunk (key repl : Str) (chunk : List Char) : List Char :=
  if strstr (cstr chunk) key then repl ++ ['\n'] else cstr chunk

/-- What the loop of `update_file` writes in at most `fuel` rounds, when a
replaced line is `repl`. -/
def rewrite_all (key repl : Str) : Nat → List Char → List Char
  | 0, _ => []
  | fuel + 1, inp =>
    match fgets 1024 inp with
    | none => []
    | some (chunk, rest) => rewrite_chunk key repl chunk ++ rewrite_all key repl fuel rest

/-- The name of the temporary file `update_file` writes (line 303). -/
def tmp_path (filepath : Str) : Str := snprintf 256 (filepath ++ ".tmp".toList)

/-- Whether the three library calls `update_file` depends on succeed for
`filepath`: opening it for reading, creating the temporary file, renaming. -/
def update_succeeds (env : Env) (w : World) (filepath : Str) : Bool :=
  env.readable filepath && (w.fs filepath).isSome && env.can_create (tmp_path filepath) &&
    env.rename_ok (tmp_path filepath) filepath

/-- Two runs of `update_file` with the same arguments, one after the other. -/
def update_twice (env : Env) (w : World) (filepath key format : Str) (channel : Int) :
    Option (World × Int) :=
  (update_file env w filepath key format channel).bind
    (fun x => update_file env x.1 filepath key format channel)

/-- The value a run returned and the content it left in `path`. -/
def outcome (r : Option (World × Int)) (path : Str) : Option (Int × Option (List Char)) :=
  r.map (fun x => (x.2, x.1.fs path))

/-! ### The persisted channel -/

/-- The first file `save_new_channel_to_files` updates. -/
def FILE1 : Str := "/etc/wifibroadcast.cfg".toList

/-- The second file `save_new_channel_to_files` updates, when it exists. -/
def FILE2 : Str := "/config/gs.conf".toList

/-- The line `save_new_channel_to_files` writes for channel `n`. -/
def channel_line (n : Int) : Str := "wifi_channel = '".toList ++ fmt_d n ++ [QUOTE]

/-- Follows the wording of the specification: every line that contained
`wifi_channel` reads `wifi_channel = '<n>'`, the other lines are as before. -/
def spec_persisted (n : Int) (content : List Char) : List Char :=
  ((spec_lines content).map
    (fun l => if "wifi_channel".toList <:+: l then channel_line n ++ ['\n'] else l)).flatten

/-- The call of line 417, as `main` makes it for a command whose channel is
`ch`: the exchange that carries `confirm_channel_change`, in the state the
query, the first exchange, `local_change_channel` and the probes have left. -/
def confirm_exchange (env : Env) (w : World) (server_ip command response : Str) (ch : Int) :
    World × Str × Int :=
  let wq := capture_orig env w
  let r := send_command_get_response env wq.1 server_ip command response BUF_SIZE
  let w2 := (r.1.log (Event.stdout (r.2.1 ++ "\n".toList))).log (Event.sleep 1)
  let p := ping_loop env server_ip 5 (local_change_channel env w2 ch)
  send_command_get_response env p.1 server_ip "confirm_channel_change".toList r.2.1 BUF_SIZE

/-! ### The interface registry -/

/-- The file `get_nics` reads. -/
def NICS_FILE : Str := "/etc/default/wifibroadcast".toList

/-- The key `get_nics` looks for at the start of a line. -/
def NICS_KEY : Str := "WFB_NICS=".toList

/-- Follows the wording of the specification: names joined by single spaces. -/
def join_spaces : List Str → Str
  | [] => []
  | [a] => a
  | a :: b :: t => a ++ ' ' :: join_spaces (b :: t)

/-- Follows the wording of the specification: the configuration line for a
list of interface names, `WFB_NICS="<names joined by single spaces>"`. -/
def nics_line (names : List Str) : Str := NICS_KEY ++ '"' :: join_spaces names ++ ['"']

/-- Follows the wording of the specification: the first line of a text that
begins with `WFB_NICS=`. -/
def spec_first_key_line (content : List Char) : Option (List Char) :=
  (spec_lines content).find? (fun l => NICS_KEY.isPrefixOf l)

/-- A name an interface can have in the configuration line: not empty, and
free of spaces, line breaks and NUL. -/
def name_ok (a : Str) : Prop :=
  a ≠ [] ∧ ' ' ∉ a ∧ '\n' ∉ a ∧ '\r' ∉ a ∧ NUL ∉ a

instance name_ok_decidable (a : Str) : Decidable (name_ok a) := by
  unfold name_ok
  infer_instance

/-! ## Concrete surroundings used to exercise the program -/

/-- A connect that succeeds at once. -/
def sys_ok : ConnectSyscalls := ⟨0, 0, 0, false, 0, 0, 0, 0⟩

/-- A connect that is refused at once. -/
def sys_refused : ConnectSyscalls := ⟨0, 0, -1, false, 0, 0, 0, 0⟩

/-- The address used in the examples. -/
def ip0 : Str := "192.168.1.10".toList

/-- A ground station with one interface and one of the two target files. -/
def fs_gs : Str → Option (List Char) := fun p =>
  if p = "/etc/default/wifibroadcast".toList then some "WFB_NICS=\"wlan0\"\n".toList
  else if p = "/etc/wifibroadcast.cfg".toList then
    some "[wifi]\nwifi_channel = '161'\nwifi_region = 'BO'\n".toList
  else none

/-- The state at program start on that ground station. -/
def world0 : World := ⟨fs_gs, [], 0, 0, 0, 0, 0⟩

/-- A node that is reachable and answers `OK`. -/
def env_up : Env where
  inet_pton := fun _ => true
  socket_ok := fun _ => true
  connect_sys := fun _ => sys_ok
  send_ok := fun _ => true
  recv := fun _ => "OK".toList
  system_ret := fun _ _ => 0
  popen_out := fun _ => some "161\n".toList
  readable := fun _ => true
  can_create := fun _ => true
  rename_ok := fun _ _ => true

/-- A node that rejects the request. -/
def env_rejecting : Env := { env_up with recv := fun _ => "Failed: busy".toList }

/-- A node that answers but is not reached by any probe. -/
def env_no_ping : Env := { env_up with system_ret := fun _ _ => 1 }

/-- A node that refuses every connection and answers no probe. -/
def env_down : Env := { env_up with connect_sys := fun _ => sys_refused, system_ret := fun _ _ => 1 }

/-- Surroundings where every connection is refused and the second `socket()`
fails. -/
def env_socket_fails : Env :=
  { env_up with connect_sys := fun _ => sys_refused, socket_ok := fun k => decide (k = 0) }

/-- A state holding the one file `path` with content `content`. -/
def world_file (path : Str) (content : List Char) : World :=
  ⟨fun p => if p = path then some content else none, [], 0, 0, 0, 0, 0⟩

/-- A ground station whose first target file has one line longer than the read
buffer of `update_file`. -/
def fs_long : Str → Option (List Char) := fun p =>
  if p = NICS_FILE then some "WFB_NICS=\"wlan0\"\n".toList
  else if p = FILE1 then some (List.replicate 1023 'x' ++ "wifi_channel = '1'\n".toList)
  else none

/-- The state at program start on that ground station. -/
def world_long : World := ⟨fs_long, [], 0, 0, 0, 0, 0⟩

/-- A node that answers every probe but refuses every connection. -/
def env_closed : Env := { env_up with connect_sys := fun _ => sys_refused }

/-- A node whose rejection arrives behind 1020 other bytes, in a reply of 1032
bytes. -/
def env_late_reject : Env :=
  { env_up with recv := fun _ => List.replicate 1020 'a' ++ "Failed: busy".toList }

/-- A node whose rejection arrives behind a NUL byte. -/
def env_nul_reject : Env := { env_up with recv := fun _ => NUL :: "Failed: busy".toList }

/-- A node that accepts the first connection and refuses every later one. -/
def env_confirm_down : Env :=
  { env_up with connect_sys := fun k => if k = 0 then sys_ok else sys_refused }

/-- A ground station whose first target file holds a NUL byte in its first
line. -/
def fs_nul : Str → Option (List Char) := fun p =>
  if p = NICS_FILE then some "WFB_NICS=\"wlan0\"\n".toList
  else if p = FILE1 then some ('a' :: NUL :: "b\nwifi_channel = '1'\n".toList)
  else none

/-- The state at program start on that ground station. -/
def world_nul : World := ⟨fs_nul, [], 0, 0, 0, 0, 0⟩

/-! # Lemmas -/

/-! ## Frame lemmas -/

@[simp] theorem log_fs (w : World) (e : Event) : (w.log e).fs = w.fs := rfl
@[simp] theorem log_trace (w : World) (e : Event) : (w.log e).trace = w.trace ++ [e] := rfl
@[simp] theorem log_n_system (w : World) (e : Event) : (w.log e).n_system = w.n_system := rfl
@[simp] theorem log_n_socket (w : World) (e : Event) : (w.log e).n_socket = w.n_socket := rfl
@[simp] theorem log_n_connect (w : World) (e : Event) : (w.log e).n_connect = w.n_connect := rfl
@[simp] theorem log_n_send (w : World) (e : Event) : (w.log e).n_send = w.n_send := rfl
@[simp] theorem log_n_read (w : World) (e : Event) : (w.log e).n_read = w.n_read := rfl

/-- What `connect_loop` leaves alone, and the shape of what it adds. -/
theorem connect_loop_frame (env : Env) (fuel attempt : Nat) (w : World) :
    (connect_loop env fuel attempt w).1.fs = w.fs ∧
    (connect_loop env fuel attempt w).1.n_system = w.n_system ∧
    ∃ ev, (connect_loop env fuel attempt w).1.trace = w.trace ++ ev ∧
      ∀ e ∈ ev, e.is_net = true := by
  induction fuel generalizing attempt w with
  | zero => exact ⟨rfl, rfl, [], by simp [connect_loop], by simp⟩
  | succ k ih =>
    unfold connect_loop
    split_ifs with h1 h2 h3
    · exact ⟨rfl, rfl, [Event.socket, Event.perror "Socket creation error".toList], by simp,
        by simp [Event.is_net]⟩
    · exact ⟨rfl, rfl, [Event.socket, Event.connect], by simp, by simp [Event.is_net]⟩
    · exact ⟨rfl, rfl, [Event.socket, Event.connect,
        Event.perror "[DEBUG] connect() failed".toList, Event.close,
        Event.stderr "Failed to connect after 3 attempts\n".toList],
        by simp, by simp [Event.is_net]⟩
    · obtain ⟨hf, hn, ev, ht, he⟩ := ih (attempt + 1)
        ((((({ w with n_socket := w.n_socket + 1, n_connect := w.n_connect + 1 }.log
          Event.socket).log Event.connect).log
          (Event.perror "[DEBUG] connect() failed".toList)).log Event.close).log
          (Event.sleep 1))
      refine ⟨by rw [hf]; rfl, by rw [hn]; rfl,
        [Event.socket, Event.connect, Event.perror "[DEBUG] connect() failed".toList, Event.close,
          Event.sleep 1] ++ ev, by rw [ht]; simp, ?_⟩
      intro e hm
      rw [List.mem_append] at hm
      rcases hm with h | h
      · revert e; simp [Event.is_net]
      · exact he e h

/-- What `send_command_get_response` leaves alone, and the shape of what it adds. -/
theorem send_frame (env : Env) (w : World) (ip cmd resp : Str) (size : Nat) :
    (send_command_get_response env w ip cmd resp size).1.fs = w.fs ∧
    (send_command_get_response env w ip cmd resp size).1.n_system = w.n_system ∧
    ∃ ev, (send_command_get_response env w ip cmd resp size).1.trace
        = w.trace ++ Event.call_send ip cmd :: ev ∧
      ∀ e ∈ ev, e.is_net = true := by
  unfold send_command_get_response
  split_ifs with h1
  · exact ⟨rfl, rfl, [Event.perror "Invalid address".toList], by simp, by simp [Event.is_net]⟩
  · obtain ⟨hf, hn, ev, ht, he⟩ :=
      connect_loop_frame env MAX_CONNECT_TRIES 1 (w.log (Event.call_send ip cmd))
    rcases hc : connect_loop env MAX_CONNECT_TRIES 1 (w.log (Event.call_send ip cmd)) with ⟨w1, b⟩
    rw [hc] at hf hn ht
    simp only at hf hn ht
    cases b
    · exact ⟨hf, hn, ev, by simpa using ht, he⟩
    · simp only
      split_ifs with h2 h3
      · refine ⟨hf, hn, ev ++ [Event.send cmd, Event.perror "Send failed".toList, Event.close],
          by simp [ht], ?_⟩
        intro e hm
        rw [List.mem_append] at hm
        rcases hm with h | h
        · exact he e h
        · revert e; simp [Event.is_net]
      all_goals
        refine ⟨hf, hn, ev ++ [Event.send cmd, Event.read, Event.close], by simp [ht], ?_⟩
        intro e hm
        rw [List.mem_append] at hm
        rcases hm with h | h
        · exact he e h
        · revert e; simp [Event.is_net]

/-- A reply without NUL that fits the buffer is held in it unchanged. -/
theorem reply_in_buffer (data : List Char) (size : Nat) (h1 : data.length ≤ size - 1)
    (h2 : NUL ∉ data) : cstr (data.take (size - 1)) = data := by
  rw [List.take_of_length_le h1]
  unfold cstr
  rw [List.takeWhile_eq_self_iff]
  intro c hc
  simp only [bne_iff_ne, ne_eq]
  intro e
  exact h2 (e ▸ hc)

theorem send_connect_all_fail (env : Env) (w : World) (ip cmd resp : Str) (size : Nat)
    (hip : env.inet_pton ip = true)
    (hsock : ∀ i, i < 3 → env.socket_ok (w.n_socket + i) = true)
    (hfail : ∀ i, i < 3 → connect_with_timeout (env.connect_sys (w.n_connect + i)) ≠ 0) :
    (send_command_get_response env w ip cmd resp size).2 = (resp, -1) ∧
    (send_command_get_response env w ip cmd resp size).1.trace = w.trace ++
      [Event.call_send ip cmd,
       Event.socket, Event.connect, Event.perror "[DEBUG] connect() failed".toList, Event.close,
       Event.sleep 1,
       Event.socket, Event.connect, Event.perror "[DEBUG] connect() failed".toList, Event.close,
       Event.sleep 1,
       Event.socket, Event.connect, Event.perror "[DEBUG] connect() failed".toList, Event.close,
       Event.stderr "Failed to connect after 3 attempts\n".toList] := by
  have s0 := hsock 0 (by omega)
  have s1 := hsock 1 (by omega)
  have s2 := hsock 2 (by omega)
  have f0 := hfail 0 (by omega)
  have f1 := hfail 1 (by omega)
  have f2 := hfail 2 (by omega)
  simp only [Nat.add_zero] at s0 f0
  simp [send_command_get_response, connect_loop, MAX_CONNECT_TRIES, hip, s0, s1, s2, f0, f1, f2,
    World.log]

theorem send_connect_first_success (env : Env) (w : World) (ip cmd resp : Str) (size : Nat)
    (hip : env.inet_pton ip = true) (k : Nat) (hk1 : 1 ≤ k) (hk3 : k ≤ 3)
    (hsock : ∀ i, i < k → env.socket_ok (w.n_socket + i) = true)
    (hfail : ∀ i, i + 1 < k → connect_with_timeout (env.connect_sys (w.n_connect + i)) ≠ 0)
    (hok : connect_with_timeout (env.connect_sys (w.n_connect + (k - 1))) = 0) :
    ∃ ev, (send_command_get_response env w ip cmd resp size).1.trace = w.trace ++ ev ∧
      ev.count Event.connect = k ∧ ev.countP Event.is_sleep = k - 1 := by
  interval_cases k
  · have s0 := hsock 0 (by omega)
    simp only [Nat.add_zero, Nat.sub_self] at s0 hok
    by_cases hs : env.send_ok w.n_send = false
    · refine ⟨[Event.call_send ip cmd, Event.socket, Event.connect, Event.send cmd,
        Event.perror "Send failed".toList, Event.close], ?_, by simp, by simp [Event.is_sleep]⟩
      simp [send_command_get_response, connect_loop, MAX_CONNECT_TRIES, hip, s0, hok, World.log, hs]
    · refine ⟨[Event.call_send ip cmd, Event.socket, Event.connect, Event.send cmd,
        Event.read, Event.close], ?_, by simp, by simp [Event.is_sleep]⟩
      simp [send_command_get_response, connect_loop, MAX_CONNECT_TRIES, hip, s0, hok, World.log, hs]
  · have s0 := hsock 0 (by omega)
    have s1 := hsock 1 (by omega)
    have f0 := hfail 0 (by omega)
    simp only [Nat.add_zero] at s0 f0
    simp only [show 2 - 1 = 1 from rfl] at hok
    by_cases hs : env.send_ok w.n_send = false
    · refine ⟨[Event.call_send ip cmd,
        Event.socket, Event.connect, Event.perror "[DEBUG] connect() failed".toList, Event.close,
        Event.sleep 1, Event.socket, Event.connect, Event.send cmd,
        Event.perror "Send failed".toList, Event.close], ?_, by simp, by simp [Event.is_sleep]⟩
      simp [send_command_get_response, connect_loop, MAX_CONNECT_TRIES, hip, s0, s1, f0, hok,
        World.log, hs]
    · refine ⟨[Event.call_send ip cmd,
        Event.socket, Event.connect, Event.perror "[DEBUG] connect() failed".toList, Event.close,
        Event.sleep 1, Event.socket, Event.connect, Event.send cmd,
        Event.read, Event.close], ?_, by simp, by simp [Event.is_sleep]⟩
      simp [send_command_get_response, connect_loop, MAX_CONNECT_TRIES, hip, s0, s1, f0, hok,
        World.log, hs]
  · have s0 := hsock 0 (by omega)
    have s1 := hsock 1 (by omega)
    have s2 := hsock 2 (by omega)
    have f0 := hfail 0 (by omega)
    have f1 := hfail 1 (by omega)
    simp only [Nat.add_zero] at s0 f0
    simp only [show 3 - 1 = 2 from rfl] at hok
    by_cases hs : env.send_ok w.n_send = false
    · refine ⟨[Event.call_send ip cmd,
        Event.socket, Event.connect, Event.perror "[DEBUG] connect() failed".toList, Event.close,
        Event.sleep 1,
        Event.socket, Event.connect, Event.perror "[DEBUG] connect() failed".toList, Event.close,
        Event.sleep 1, Event.socket, Event.connect, Event.send cmd,
        Event.perror "Send failed".toList, Event.close], ?_, by simp, by simp [Event.is_sleep]⟩
      simp [send_command_get_response, connect_loop, MAX_CONNECT_TRIES, hip, s0, s1, s2, f0, f1,
        hok, World.log, hs]
    · refine ⟨[Event.call_send ip cmd,
        Event.socket, Event.connect, Event.perror "[DEBUG] connect() failed".toList, Event.close,
        Event.sleep 1,
        Event.socket, Event.connect, Event.perror "[DEBUG] connect() failed".toList, Event.close,
        Event.sleep 1, Event.socket, Event.connect, Event.send cmd,
        Event.read, Event.close], ?_, by simp, by simp [Event.is_sleep]⟩
      simp [send_command_get_response, connect_loop, MAX_CONNECT_TRIES, hip, s0, s1, s2, f0, f1,
        hok, World.log, hs]

/-- A reading of the trace that ignores the events inside
`send_command_get_response` finds nothing in them. -/
theorem filterMap_net {β : Type} (f : Event → Option β)
    (hf : ∀ e, e.is_net = true → f e = none) (ev : List Event)
    (he : ∀ e ∈ ev, e.is_net = true) : ev.filterMap f = [] := by
  induction ev with
  | nil => rfl
  | cons a t ih =>
    rw [List.filterMap_cons, hf a (he a (List.mem_cons_self a t))]
    exact ih (fun e h => he e (List.mem_cons_of_mem a h))

/-- The trace readings of one `send_command_get_response`. -/
theorem send_readings (env : Env) (w : World) (ip cmd resp : Str) (size : Nat) :
    system_calls (send_command_get_response env w ip cmd resp size).1.trace
      = system_calls w.trace ∧
    local_calls (send_command_get_response env w ip cmd resp size).1.trace
      = local_calls w.trace ∧
    update_calls (send_command_get_response env w ip cmd resp size).1.trace
      = update_calls w.trace ∧
    sent_commands (send_command_get_response env w ip cmd resp size).1.trace
      = sent_commands w.trace ++ [cmd] ∧
    printed (send_command_get_response env w ip cmd resp size).1.trace
      = printed w.trace := by
  obtain ⟨_, _, ev, ht, he⟩ := send_frame env w ip cmd resp size
  rw [ht]
  refine ⟨?_, ?_, ?_, ?_, ?_⟩
  · unfold system_calls
    rw [List.filterMap_append, List.filterMap_cons]
    simp only
    rw [filterMap_net _ (by intro e; cases e <;> simp [Event.is_net]) ev he, List.append_nil]
  · unfold local_calls
    rw [List.filterMap_append, List.filterMap_cons]
    simp only
    rw [filterMap_net _ (by intro e; cases e <;> simp [Event.is_net]) ev he, List.append_nil]
  · unfold update_calls
    rw [List.filterMap_append, List.filterMap_cons]
    simp only
    rw [filterMap_net _ (by intro e; cases e <;> simp [Event.is_net]) ev he, List.append_nil]
  · unfold sent_commands
    rw [List.filterMap_append, List.filterMap_cons]
    simp only
    rw [filterMap_net _ (by intro e; cases e <;> simp [Event.is_net]) ev he]
  · unfold printed
    rw [List.filterMap_append, List.filterMap_cons]
    simp only
    rw [filterMap_net _ (by intro e; cases e <;> simp [Event.is_net]) ev he, List.append_nil]

/-- The query of the original channel changes no file and runs no command
through `system`. -/
theorem capture_orig_frame (env : Env) (w : World) :
    (capture_orig env w).1.fs = w.fs ∧
    (capture_orig env w).1.n_system = w.n_system ∧
    system_calls (capture_orig env w).1.trace = system_calls w.trace ∧
    local_calls (capture_orig env w).1.trace = local_calls w.trace ∧
    update_calls (capture_orig env w).1.trace = update_calls w.trace ∧
    sent_commands (capture_orig env w).1.trace = sent_commands w.trace := by
  unfold capture_orig
  split <;> simp [system_calls, local_calls, update_calls, sent_commands]

/-- `get_nics` reads the files only. -/
theorem get_nics_congr (env : Env) (w w1 : World) (h : w1.fs = w.fs) :
    get_nics env w1 = get_nics env w := by
  unfold get_nics
  rw [h]

/-- The loop of `local_change_channel` over the interfaces. -/
theorem set_all_frame (env : Env) (channel : Int) (nics : List Str) (w : World) :
    (nics.foldl (fun w1 nic => (system env w1 (iw_set_channel nic channel)).1) w).fs = w.fs ∧
    (nics.foldl (fun w1 nic => (system env w1 (iw_set_channel nic channel)).1) w).n_system
      = w.n_system + nics.length ∧
    (nics.foldl (fun w1 nic => (system env w1 (iw_set_channel nic channel)).1) w).trace
      = w.trace ++ nics.map (fun nic => Event.system (iw_set_channel nic channel)) := by
  induction nics generalizing w with
  | nil => simp
  | cons a t ih =>
    obtain ⟨h1, h2, h3⟩ := ih (system env w (iw_set_channel a channel)).1
    simp only [List.foldl_cons, List.map_cons, List.length_cons]
    refine ⟨by rw [h1]; rfl, by rw [h2]; simp [system]; omega, by rw [h3]; simp [system]⟩

/-- Function `local_change_channel` issues one command per interface and
changes no file. -/
theorem local_change_channel_frame (env : Env) (w : World) (channel : Int) :
    (local_change_channel env w channel).fs = w.fs ∧
    (local_change_channel env w channel).n_system = w.n_system + (nics_of env w).length ∧
    (local_change_channel env w channel).trace
      = w.trace ++ Event.call_local_change_channel channel ::
          (nics_of env w).map (fun nic => Event.system (iw_set_channel nic channel)) := by
  unfold local_change_channel nics_of
  cases hg : get_nics env w with
  | none => simp
  | some nics =>
    obtain ⟨h1, h2, h3⟩ := set_all_frame env channel nics
      (w.log (Event.call_local_change_channel channel))
    simp only [Option.getD_some]
    exact ⟨by rw [h1]; rfl, by rw [h2]; rfl, by rw [h3]; simp⟩

/-- The probe loop when every probe fails. -/
theorem ping_loop_all_fail (env : Env) (ip : Str) (fuel : Nat) (w : World)
    (h : ∀ i, i < fuel → env.system_ret (w.n_system + i) (ping_cmd ip) ≠ 0) :
    (ping_loop env ip fuel w).2 = false ∧
    (ping_loop env ip fuel w).1.fs = w.fs ∧
    (ping_loop env ip fuel w).1.n_system = w.n_system + fuel ∧
    (ping_loop env ip fuel w).1.trace
      = w.trace ++ (List.replicate fuel [Event.system (ping_cmd ip), Event.sleep 1]).flatten := by
  induction fuel generalizing w with
  | zero => simp [ping_loop]
  | succ k ih =>
    have h0 := h 0 (by omega)
    simp only [Nat.add_zero] at h0
    unfold ping_loop
    simp only [system, h0, if_false]
    obtain ⟨a, b, c, d⟩ := ih
      (({ w with n_system := w.n_system + 1 }.log (Event.system (ping_cmd ip))).log (Event.sleep 1))
      (by
        intro i hi
        have := h (i + 1) (by omega)
        simpa [Nat.add_assoc, Nat.add_comm 1 i] using this)
    refine ⟨a, by rw [b]; rfl, by rw [c]; simp; omega, by rw [d]; simp [List.replicate_succ]⟩

/-- The probe loop when some probe succeeds: it reports success after at most
`fuel` probes and before any later one. -/
theorem ping_loop_some_ok (env : Env) (ip : Str) (fuel : Nat) (w : World)
    (h : ∃ i, i < fuel ∧ env.system_ret (w.n_system + i) (ping_cmd ip) = 0) :
    (ping_loop env ip fuel w).2 = true ∧
    (ping_loop env ip fuel w).1.fs = w.fs ∧
    ∃ j, j < fuel ∧ env.system_ret (w.n_system + j) (ping_cmd ip) = 0 ∧
      (ping_loop env ip fuel w).1.trace
        = w.trace ++ (List.replicate j [Event.system (ping_cmd ip), Event.sleep 1]).flatten
            ++ [Event.system (ping_cmd ip)] := by
  induction fuel generalizing w with
  | zero => obtain ⟨i, hi, _⟩ := h; omega
  | succ k ih =>
    unfold ping_loop
    by_cases h0 : env.system_ret w.n_system (ping_cmd ip) = 0
    · simp only [system, h0, if_true]
      exact ⟨trivial, rfl, 0, by omega, by simpa using h0, by simp⟩
    · simp only [system, h0, if_false]
      obtain ⟨i, hi, hr⟩ := h
      have hi0 : i ≠ 0 := by
        intro e
        subst e
        exact h0 (by simpa using hr)
      obtain ⟨a, b, j, hj, hjr, d⟩ := ih
        (({ w with n_system := w.n_system + 1 }.log (Event.system (ping_cmd ip))).log
          (Event.sleep 1))
        ⟨i - 1, by omega, by
          have e : w.n_system + 1 + (i - 1) = w.n_system + i := by omega
          simpa [e] using hr⟩
      refine ⟨a, by rw [b]; rfl, j + 1, by omega, ?_, ?_⟩
      · have e : w.n_system + 1 + j = w.n_system + (j + 1) := by omega
        simpa [e] using hjr
      · rw [d]; simp [List.replicate_succ]

/-! ## The rewriting loop of `update_file` -/

theorem strstr_iff (hay key : Str) : strstr hay key = true ↔ key <:+: hay := by
  induction hay with
  | nil =>
    cases key with
    | nil => simp [strstr]
    | cons a t => simp [strstr]
  | cons c s ih =>
    unfold strstr
    rw [Bool.or_eq_true, ih, List.isPrefixOf_iff_prefix, List.infix_cons_iff]

theorem update_loop_eq (key fmt : Str) (ch : Int) (r : Str) (h : format_int fmt ch = some r)
    (fuel : Nat) (inp out : List Char) :
    update_loop key fmt ch fuel inp out
      = some (out ++ rewrite_all key (snprintf 1024 r) fuel inp) := by
  induction fuel generalizing inp out with
  | zero => simp [update_loop, rewrite_all]
  | succ k ih =>
    unfold update_loop rewrite_all
    cases hf : fgets 1024 inp with
    | none => simp
    | some p =>
      obtain ⟨chunk, rest⟩ := p
      simp only [h, rewrite_chunk]
      split_ifs with hs
      · rw [ih]; simp
      · rw [ih]; simp

theorem cstr_of_not_mem (b : List Char) (h : NUL ∉ b) : cstr b = b := by
  unfold cstr
  rw [List.takeWhile_eq_self_iff]
  intro c hc
  simp only [bne_iff_ne, ne_eq]
  intro e
  exact h (e ▸ hc)

theorem line_split_append (s : List Char) : (line_split s).1 ++ (line_split s).2 = s := by
  induction s with
  | nil => rfl
  | cons c t ih =>
    unfold line_split
    split_ifs with h
    · rfl
    · simp [ih]

theorem line_split_ne_nil (c : Char) (s : List Char) : (line_split (c :: s)).1 ≠ [] := by
  unfold line_split
  split_ifs <;> simp

theorem spec_lines_cons (c : Char) (s : List Char) :
    spec_lines (c :: s) = (line_split (c :: s)).1 :: spec_lines (line_split (c :: s)).2 := by
  induction s generalizing c with
  | nil =>
    unfold spec_lines line_split
    split_ifs with h
    · rfl
    · simp [spec_lines, line_split]
  | cons d t ih =>
    rw [spec_lines, line_split]
    split_ifs with h
    · rfl
    · rw [ih d]

theorem fgets_take_line (k : Nat) (s : List Char) (h : (line_split s).1.length ≤ k) :
    fgets_take k s = line_split s := by
  induction k generalizing s with
  | zero =>
    cases s with
    | nil => rfl
    | cons c t =>
      exfalso
      have := line_split_ne_nil c t
      rw [← List.length_pos] at this
      omega
  | succ j ih =>
    cases s with
    | nil => rfl
    | cons c t =>
      unfold fgets_take line_split
      split_ifs with hc
      · rfl
      · have : (line_split t).1.length ≤ j := by
          unfold line_split at h
          simp only [hc, if_false, List.length_cons] at h
          omega
        rw [ih t this]

theorem line_split_snd_length (c : Char) (s : List Char) :
    (line_split (c :: s)).2.length < (c :: s).length := by
  have h1 := line_split_append (c :: s)
  have h2 := line_split_ne_nil c s
  rw [← List.length_pos] at h2
  have h3 := congrArg List.length h1
  rw [List.length_append] at h3
  omega

/-- On a text without NUL whose lines fit the buffer, the loop rewrites line by
line. -/
theorem rewrite_all_spec (key repl : Str) (fuel : Nat) (inp : List Char)
    (hfuel : inp.length ≤ fuel) (hnul : NUL ∉ inp)
    (hshort : ∀ l ∈ spec_lines inp, l.length ≤ 1023) :
    rewrite_all key repl fuel inp = spec_update key repl inp := by
  induction fuel generalizing inp with
  | zero =>
    have : inp = [] := List.length_eq_zero.mp (by omega)
    subst this
    rfl
  | succ k ih =>
    cases inp with
    | nil => rfl
    | cons c s =>
      have hl := spec_lines_cons c s
      have hsp := line_split_append (c :: s)
      have hlen := line_split_snd_length c s
      rcases hls : line_split (c :: s) with ⟨l, rest⟩
      rw [hls] at hl hsp hlen
      simp only at hl hsp hlen
      have h1 : l.length ≤ 1023 := hshort _ (by rw [hl]; exact List.mem_cons_self _ _)
      have hn1 : NUL ∉ l := by
        intro hm; apply hnul; rw [← hsp]; exact List.mem_append_left _ hm
      have hn2 : NUL ∉ rest := by
        intro hm; apply hnul; rw [← hsp]; exact List.mem_append_right _ hm
      have hfg : fgets 1024 (c :: s) = some (l, rest) := by
        unfold fgets
        simp only [List.cons_ne_nil, if_false, show 1024 - 1 = 1023 from rfl]
        rw [fgets_take_line 1023 (c :: s) (by rw [hls]; exact h1), hls]
      unfold rewrite_all
      rw [hfg]
      simp only
      rw [ih _ (by simp only [List.length_cons] at hlen hfuel; omega) hn2
        (fun l hm => hshort l (by rw [hl]; exact List.mem_cons_of_mem _ hm))]
      unfold spec_update
      rw [hl, List.map_cons, List.flatten_cons]
      congr 1
      unfold rewrite_chunk
      rw [cstr_of_not_mem _ hn1]
      by_cases hk : key <:+: l
      · rw [if_pos ((strstr_iff _ _).mpr hk), if_pos hk]
      · rw [if_neg (fun h => hk ((strstr_iff _ _).mp h)), if_neg hk]

theorem fgets_take_append (k : Nat) (inp y : List Char)
    (hy : (fgets_take k inp).2 = [] → y = []) :
    fgets_take k ((fgets_take k inp).1 ++ y) = ((fgets_take k inp).1, y) := by
  induction k generalizing inp with
  | zero => simp [fgets_take]
  | succ j ih =>
    cases inp with
    | nil =>
      have : y = [] := hy rfl
      subst this
      rfl
    | cons c s =>
      by_cases hc : c = '\n'
      · simp [fgets_take, hc]
      · have hy2 : (fgets_take j s).2 = [] → y = [] := by
          intro h
          apply hy
          simp only [fgets_take, hc, if_false]
          exact h
        have := ih s hy2
        simp only [fgets_take, hc, if_false, List.cons_append]
        rw [this]

theorem fgets_take_newline (k : Nat) (r y : List Char) (hnl : '\n' ∉ r) (hk : r.length < k) :
    fgets_take k (r ++ '\n' :: y) = (r ++ ['\n'], y) := by
  induction r generalizing k with
  | nil =>
    obtain ⟨j, rfl⟩ : ∃ j, k = j + 1 := ⟨k - 1, by simp at hk; omega⟩
    simp [fgets_take]
  | cons c t ih =>
    obtain ⟨j, rfl⟩ : ∃ j, k = j + 1 := ⟨k - 1, by simp at hk; omega⟩
    have hc : c ≠ '\n' := by
      intro e; apply hnl; rw [e]; exact List.mem_cons_self _ _
    have ht : '\n' ∉ t := fun h => hnl (List.mem_cons_of_mem _ h)
    have e := ih j ht (by simp at hk; omega)
    rw [List.cons_append, fgets_take, if_neg hc, e]
    rfl

theorem fgets_take_length (k : Nat) (c : Char) (s : List Char) :
    (fgets_take (k + 1) (c :: s)).1 ≠ [] ∧
    (fgets_take (k + 1) (c :: s)).2.length < (c :: s).length := by
  induction k generalizing c s with
  | zero =>
    unfold fgets_take
    split_ifs <;> simp [fgets_take]
  | succ j ih =>
    unfold fgets_take
    split_ifs with h
    · simp
    · cases s with
      | nil => simp [fgets_take]
      | cons d t =>
        have := (ih d t).2
        simp only [List.length_cons] at this ⊢
        exact ⟨by simp, by omega⟩

theorem fgets_take_fst_append (k : Nat) (s : List Char) :
    (fgets_take k s).1 ++ (fgets_take k s).2 = s := by
  induction k generalizing s with
  | zero => rfl
  | succ j ih =>
    cases s with
    | nil => rfl
    | cons c t =>
      unfold fgets_take
      split_ifs
      · rfl
      · simp [ih t]

theorem rewrite_chunk_ne_nil (key repl : Str) (chunk : List Char) (h : chunk ≠ [])
    (hn : NUL ∉ chunk) : rewrite_chunk key repl chunk ≠ [] := by
  unfold rewrite_chunk
  split_ifs
  · simp
  · rw [cstr_of_not_mem _ hn]; exact h

theorem rewrite_all_nil (key repl : Str) (fuel : Nat) : rewrite_all key repl fuel [] = [] := by
  cases fuel <;> simp [rewrite_all, fgets]

/-- The rewriting loop leaves its own output as it is. -/
theorem rewrite_all_idem (key repl : Str) (hlen : repl.length ≤ 1022) (hnl : '\n' ∉ repl)
    (hnul : NUL ∉ repl) (fuel : Nat) (inp : List Char) (hfuel : inp.length ≤ fuel)
    (hin : NUL ∉ inp) (fuel2 : Nat)
    (hfuel2 : (rewrite_all key repl fuel inp).length ≤ fuel2) :
    rewrite_all key repl fuel2 (rewrite_all key repl fuel inp)
      = rewrite_all key repl fuel inp := by
  induction fuel generalizing inp fuel2 with
  | zero =>
    have : inp = [] := List.length_eq_zero.mp (by omega)
    subst this
    simp [rewrite_all, rewrite_all_nil]
  | succ k ih =>
    cases inp with
    | nil => simp [rewrite_all, fgets, rewrite_all_nil]
    | cons c s =>
      have hfg : fgets 1024 (c :: s) = some (fgets_take 1023 (c :: s)) := by
        simp [fgets]
      obtain ⟨hne, hlt⟩ := fgets_take_length 1022 c s
      have happ := fgets_take_fst_append 1023 (c :: s)
      rcases hft : fgets_take 1023 (c :: s) with ⟨chunk, rest⟩
      rw [hft] at hfg hne hlt happ
      simp only at hne hlt happ
      have hn1 : NUL ∉ chunk := by
        intro hm; apply hin; rw [← happ]; exact List.mem_append_left _ hm
      have hn2 : NUL ∉ rest := by
        intro hm; apply hin; rw [← happ]; exact List.mem_append_right _ hm
      have hstep : rewrite_all key repl (k + 1) (c :: s)
          = rewrite_chunk key repl chunk ++ rewrite_all key repl k rest := by
        rw [rewrite_all, hfg]
      rw [hstep] at hfuel2 ⊢
      have hrest : rest.length ≤ k := by
        simp only [List.length_cons] at hlt hfuel; omega
      have hg := rewrite_chunk_ne_nil key repl chunk hne hn1
      have hgl : 0 < (rewrite_chunk key repl chunk).length := List.length_pos.mpr hg
      rw [List.length_append] at hfuel2
      obtain ⟨f2, rfl⟩ : ∃ f2, fuel2 = f2 + 1 := ⟨fuel2 - 1, by omega⟩
      -- the second pass reads the rewritten chunk back as one buffer
      have hread : fgets 1024 (rewrite_chunk key repl chunk ++ rewrite_all key repl k rest)
          = some (rewrite_chunk key repl chunk, rewrite_all key repl k rest) := by
        unfold fgets
        rw [if_neg (by simp [hg])]
        simp only [show 1024 - 1 = 1023 from rfl]
        unfold rewrite_chunk
        split_ifs with hs
        · rw [List.append_assoc, List.singleton_append,
            fgets_take_newline 1023 repl _ hnl (by omega)]
        · rw [cstr_of_not_mem _ hn1]
          have := fgets_take_append 1023 (c :: s) (rewrite_all key repl k rest) (by
            rw [hft]; intro h; simp only at h; rw [h]; exact rewrite_all_nil _ _ _)
          rw [hft] at this
          exact congrArg some this
      have hgg : rewrite_chunk key repl (rewrite_chunk key repl chunk)
          = rewrite_chunk key repl chunk := by
        unfold rewrite_chunk
        by_cases hs : strstr (cstr chunk) key = true
        · simp only [hs, if_true]
          have : cstr (repl ++ ['\n']) = repl ++ ['\n'] := by
            apply cstr_of_not_mem
            intro hm
            rw [List.mem_append] at hm
            rcases hm with h | h
            · exact hnul h
            · simp [NUL] at h
          rw [this]
          split_ifs <;> rfl
        · simp only [hs, Bool.false_eq_true, if_false]
          have : cstr (cstr chunk) = cstr chunk := by
            rw [cstr_of_not_mem _ hn1, cstr_of_not_mem _ hn1]
          rw [this]
          simp only [hs, Bool.false_eq_true, if_false]
      rw [rewrite_all, hread]
      simp only
      rw [hgg, ih rest hrest hn2 f2 (by omega)]

/-! ## The reply of one exchange -/

/-- The connection attempts read nothing. -/
theorem connect_loop_n_read (env : Env) (fuel attempt : Nat) (w : World) :
    (connect_loop env fuel attempt w).1.n_read = w.n_read := by
  induction fuel generalizing attempt w with
  | zero => rfl
  | succ k ih =>
    unfold connect_loop
    split_ifs with h1 h2 h3
    · rfl
    · rfl
    · rfl
    · rw [ih]; rfl

/-- The query of the original channel reads nothing from a connection. -/
theorem capture_orig_n_read (env : Env) (w : World) :
    (capture_orig env w).1.n_read = w.n_read := by
  unfold capture_orig
  split <;> rfl

/-- An exchange that returns 0 sent its command, made one `read` and closed,
in this order and as its last three steps; the buffer then holds the bytes this
`read` found, cut to the buffer and to a C string. -/
theorem send_success (env : Env) (w : World) (ip cmd resp : Str) (size : Nat)
    (h : (send_command_get_response env w ip cmd resp size).2.2 = 0) :
    (∃ ev, (send_command_get_response env w ip cmd resp size).1.trace
      = w.trace ++ Event.call_send ip cmd :: ev
          ++ [Event.send cmd, Event.read, Event.close]) ∧
    (send_command_get_response env w ip cmd resp size).2.1
      = (if (env.recv w.n_read).take (size - 1) = [] then
          snprintf size "No immediate rejection.  Moving on...".toList
         else cstr ((env.recv w.n_read).take (size - 1))) := by
  have hr := connect_loop_n_read env MAX_CONNECT_TRIES 1 (w.log (Event.call_send ip cmd))
  obtain ⟨_, _, ev, ht, _⟩ :=
    connect_loop_frame env MAX_CONNECT_TRIES 1 (w.log (Event.call_send ip cmd))
  unfold send_command_get_response at h ⊢
  by_cases h1 : env.inet_pton ip = false
  · rw [if_pos h1] at h
    exact absurd h (show (-1 : Int) ≠ 0 by decide)
  · rw [if_neg h1] at h ⊢
    rcases hc : connect_loop env MAX_CONNECT_TRIES 1 (w.log (Event.call_send ip cmd)) with ⟨w1, b⟩
    rw [hc] at hr ht
    simp only [hc] at h ⊢
    simp only [log_n_read, log_trace] at hr ht
    cases b
    · exact absurd h (show (-1 : Int) ≠ 0 by decide)
    · simp only at h ⊢
      by_cases h2 : env.send_ok w1.n_send = false
      · rw [if_pos h2] at h
        exact absurd h (show (-1 : Int) ≠ 0 by decide)
      · rw [if_neg h2]
        simp only [log_trace, ht, hr]
        exact ⟨⟨ev, by simp⟩, trivial⟩

/-- A reply without `Failed` leaves a response without `Failed` in the buffer. -/
theorem reply_without_failed (env : Env) (w : World) (ip cmd resp : Str) (size : Nat)
    (h : (send_command_get_response env w ip cmd resp size).2.2 = 0)
    (hr : strstr (env.recv w.n_read) "Failed".toList = false) :
    strstr (send_command_get_response env w ip cmd resp size).2.1 "Failed".toList = false := by
  rw [(send_success env w ip cmd resp size h).2]
  rw [Bool.eq_false_iff, ne_eq, strstr_iff] at hr ⊢
  intro hin
  split_ifs at hin with he
  · have h1 : "Failed".toList <:+: "No immediate rejection.  Moving on...".toList :=
      hin.trans (List.take_prefix _ _).isInfix
    rw [← strstr_iff] at h1
    exact absurd h1 (by decide)
  · exact hr ((hin.trans (List.takeWhile_prefix _).isInfix).trans (List.take_prefix _ _).isInfix)

theorem system_calls_append (a b : List Event) :
    system_calls (a ++ b) = system_calls a ++ system_calls b := by
  simp [system_calls]

theorem local_calls_append (a b : List Event) :
    local_calls (a ++ b) = local_calls a ++ local_calls b := by
  simp [local_calls]

theorem update_calls_append (a b : List Event) :
    update_calls (a ++ b) = update_calls a ++ update_calls b := by
  simp [update_calls]

theorem sent_commands_append (a b : List Event) :
    sent_commands (a ++ b) = sent_commands a ++ sent_commands b := by
  simp [sent_commands]

theorem printed_append (a b : List Event) :
    printed (a ++ b) = printed a ++ printed b := by
  simp [printed]

/-- A command that starts with `change_channel` is not the confirmation. -/
theorem verb_ne_confirm (cmd : Str) (h : strncmp_eq cmd "change_channel".toList 14 = true) :
    cmd ≠ "confirm_channel_change".toList := by
  intro e
  subst e
  revert h
  decide

/-- The empty string does not contain `Failed`. -/
theorem strstr_cstr_nil : strstr (cstr []) "Failed".toList = false := by decide

theorem system_calls_flatten_ping (ip : Str) (k : Nat) :
    system_calls (List.replicate k [Event.system (ping_cmd ip), Event.sleep 1]).flatten
      = List.replicate k (ping_cmd ip) := by
  induction k with
  | zero => rfl
  | succ j ih =>
    rw [List.replicate_succ, List.flatten_cons, system_calls_append, ih, List.replicate_succ]
    rfl

theorem system_calls_map (f : Str → Str) (l : List Str) :
    system_calls (l.map (fun x => Event.system (f x))) = l.map f := by
  induction l with
  | nil => rfl
  | cons a t ih =>
    rw [List.map_cons, List.map_cons, ← ih]
    rfl

theorem local_calls_map (f : Str → Str) (l : List Str) :
    local_calls (l.map (fun x => Event.system (f x))) = [] := by
  induction l with
  | nil => rfl
  | cons a t ih =>
    rw [List.map_cons, ← List.singleton_append, local_calls_append, ih]
    rfl

theorem update_calls_map (f : Str → Str) (l : List Str) :
    update_calls (l.map (fun x => Event.system (f x))) = [] := by
  induction l with
  | nil => rfl
  | cons a t ih =>
    rw [List.map_cons, ← List.singleton_append, update_calls_append, ih]
    rfl

theorem sent_commands_map (f : Str → Str) (l : List Str) :
    sent_commands (l.map (fun x => Event.system (f x))) = [] := by
  induction l with
  | nil => rfl
  | cons a t ih =>
    rw [List.map_cons, ← List.singleton_append, sent_commands_append, ih]
    rfl

theorem printed_map (f : Str → Str) (l : List Str) :
    printed (l.map (fun x => Event.system (f x))) = [] := by
  induction l with
  | nil => rfl
  | cons a t ih =>
    rw [List.map_cons, ← List.singleton_append, printed_append, ih]
    rfl

theorem local_calls_flatten_ping (ip : Str) (k : Nat) :
    local_calls (List.replicate k [Event.system (ping_cmd ip), Event.sleep 1]).flatten = [] := by
  induction k with
  | zero => rfl
  | succ j ih =>
    rw [List.replicate_succ, List.flatten_cons, local_calls_append, ih]
    rfl

theorem update_calls_flatten_ping (ip : Str) (k : Nat) :
    update_calls (List.replicate k [Event.system (ping_cmd ip), Event.sleep 1]).flatten = [] := by
  induction k with
  | zero => rfl
  | succ j ih =>
    rw [List.replicate_succ, List.flatten_cons, update_calls_append, ih]
    rfl

theorem sent_commands_flatten_ping (ip : Str) (k : Nat) :
    sent_commands (List.replicate k [Event.system (ping_cmd ip), Event.sleep 1]).flatten = [] := by
  induction k with
  | zero => rfl
  | succ j ih =>
    rw [List.replicate_succ, List.flatten_cons, sent_commands_append, ih]
    rfl

/-- A command that starts with `set_video_mode` does not start with
`change_channel`. -/
theorem video_not_channel (cmd : Str) (h : strncmp_eq cmd "set_video_mode".toList 14 = true) :
    strncmp_eq cmd "change_channel".toList 14 = false := by
  unfold strncmp_eq at *
  simp only [beq_iff_eq] at h
  rw [h]
  decide

/-- What `forward` does, read off the trace. -/
theorem forward_readings (env : Env) (w : World) (ip cmd resp : Str) :
    (forward env w ip cmd resp).fs = w.fs ∧
    system_calls (forward env w ip cmd resp).trace = system_calls w.trace ∧
    sent_commands (forward env w ip cmd resp).trace = sent_commands w.trace ++ [cmd] ∧
    printed (forward env w ip cmd resp).trace = printed w.trace ++
      (if (send_command_get_response env w ip cmd resp BUF_SIZE).2.2 = 0 then
        [(send_command_get_response env w ip cmd resp BUF_SIZE).2.1 ++ "\n".toList] else []) := by
  obtain ⟨s1, s2, s3, s4, s5⟩ := send_readings env w ip cmd resp BUF_SIZE
  obtain ⟨f1, _, _⟩ := send_frame env w ip cmd resp BUF_SIZE
  unfold forward
  simp only
  split_ifs with h
  · refine ⟨by simp [f1], ?_, ?_, ?_⟩
    · simp only [log_trace, system_calls_append, s1]; simp [system_calls]
    · simp only [log_trace, sent_commands_append, s4]; simp [sent_commands]
    · simp only [log_trace, printed_append, s5]; simp [printed]
  · exact ⟨f1, s1, s4, by simp [s5]⟩

theorem tmp_path_eq (p : Str) : snprintf 256 (p ++ ".tmp".toList) = tmp_path p := rfl

/-- The content a successful `update_file` leaves in the file. -/
theorem update_file_success (env : Env) (w w1 : World) (path key fmt : Str) (ch : Int) (r : Str)
    (hfmt : format_int fmt ch = some r)
    (hok : update_file env w path key fmt ch = some (w1, 1)) :
    w1.fs path = some (rewrite_all key (snprintf 1024 r)
      ((fs_set w.fs (tmp_path path) (some []) path).getD []).length
      ((fs_set w.fs (tmp_path path) (some []) path).getD [])) := by
  unfold update_file at hok
  simp only [tmp_path_eq] at hok
  split_ifs at hok with h1 h2 h3
  · simp at hok
  · simp at hok
  · rw [update_loop_eq key fmt ch r hfmt] at hok
    simp at hok
  · rw [update_loop_eq key fmt ch r hfmt] at hok
    simp only [List.nil_append, Option.some.injEq, Prod.mk.injEq, and_true] at hok
    rw [← hok]
    simp only [log_fs, World.with_fs, fs_rename]
    split_ifs with h4
    · simp [fs_set, h4]
    · have h5 : path ≠ tmp_path path := fun e => h4 e.symm
      simp [fs_set, h5]

theorem spec_lines_flatten_le (n : Nat) (c : List Char) (h : c.length ≤ n) :
    (spec_lines c).flatten = c := by
  induction n generalizing c with
  | zero =>
    have : c = [] := List.length_eq_zero.mp (by omega)
    subst this
    rfl
  | succ k ih =>
    cases c with
    | nil => rfl
    | cons a t =>
      have hl := line_split_snd_length a t
      rw [spec_lines_cons, List.flatten_cons,
        ih _ (by simp only [List.length_cons] at hl h; omega)]
      exact line_split_append (a :: t)

theorem spec_lines_flatten (c : List Char) : (spec_lines c).flatten = c :=
  spec_lines_flatten_le c.length c (le_refl _)

theorem spec_update_no_match (key repl : Str) (c : List Char)
    (h : ∀ l ∈ spec_lines c, ¬ key <:+: l) : spec_update key repl c = c := by
  unfold spec_update
  have : (spec_lines c).map (fun l => if key <:+: l then repl ++ ['\n'] else l)
      = spec_lines c := by
    conv_rhs => rw [← List.map_id (spec_lines c)]
    apply List.map_congr_left
    intro l hl
    rw [if_neg (h l hl)]
    rfl
  rw [this, spec_lines_flatten]

theorem format_lit_replicate (n : Nat) :
    format_lit (List.replicate n 'k') = some (List.replicate n 'k') := by
  induction n with
  | zero => rfl
  | succ j ih =>
    rw [List.replicate_succ]
    unfold format_lit
    rw [if_neg (by decide), ih]
    rfl

theorem format_int_replicate (n : Nat) (v : Int) :
    format_int (List.replicate n 'k') v = some (List.replicate n 'k') := by
  induction n with
  | zero => rfl
  | succ j ih =>
    rw [List.replicate_succ]
    unfold format_int
    rw [if_neg (by decide), ih]
    rfl

/-- A run of `update_file` whose library calls succeed. -/
theorem update_file_run (env : Env) (w : World) (path key fmt : Str) (ch : Int) (r : Str)
    (hfmt : format_int fmt ch = some r) (hs : update_succeeds env w path = true) :
    ∃ w1, update_file env w path key fmt ch = some (w1, 1) ∧
      w1.trace = w.trace ++ [Event.call_update_file path key fmt ch] ∧
      w1.fs = fs_rename (fs_set w.fs (tmp_path path) (some
          (rewrite_all key (snprintf 1024 r)
            ((fs_set w.fs (tmp_path path) (some []) path).getD []).length
            ((fs_set w.fs (tmp_path path) (some []) path).getD []))))
        (tmp_path path) path := by
  unfold update_succeeds at hs
  simp only [Bool.and_eq_true, Option.isSome_iff_ne_none] at hs
  obtain ⟨⟨⟨a, b⟩, c⟩, d⟩ := hs
  unfold update_file
  simp only [tmp_path_eq, a, b, c, d, update_loop_eq key fmt ch r hfmt]
  simp [World.with_fs]

theorem spec_lines_line (l rest : List Char) (h : '\n' ∉ l) :
    spec_lines (l ++ '\n' :: rest) = (l ++ ['\n']) :: spec_lines rest := by
  induction l with
  | nil => simp [spec_lines]
  | cons c t ih =>
    have hc : c ≠ '\n' := by
      intro e; apply h; rw [e]; exact List.mem_cons_self _ _
    have ht : '\n' ∉ t := fun hm => h (List.mem_cons_of_mem _ hm)
    rw [List.cons_append, spec_lines, if_neg hc, ih ht]
    rfl

/-! ## Persisting the channel -/

theorem wrap32_range (v : Int) : -2147483648 ≤ wrap32 v ∧ wrap32 v < 2147483648 := by
  unfold wrap32
  constructor <;> omega

theorem fmt_d_length (n : Int) (h1 : -2147483648 ≤ n) (h2 : n < 2147483648) :
    (fmt_d n).length ≤ 11 := by
  have hb : n.natAbs < 10 ^ 10 := by omega
  have hl : (Nat.toDigits 10 n.natAbs).length ≤ 10 :=
    Nat.toDigitsCore_length 10 (by decide) _ _ 10 hb (by decide)
  unfold fmt_d
  split_ifs
  · simp only [List.length_cons]; omega
  · omega

theorem format_wifi_channel (n : Int) :
    format_int "wifi_channel = '%d'".toList n
      = some ("wifi_channel = '".toList ++ fmt_d n ++ [QUOTE]) := by
  rfl

/-- Every outcome of `update_file`, for a format that can be rendered. -/
theorem update_file_frame (env : Env) (w : World) (path key fmt : Str) (ch : Int) (r : Str)
    (hfmt : format_int fmt ch = some r) :
    ∃ w1 ret, update_file env w path key fmt ch = some (w1, ret) ∧
      (∀ p, p ≠ path → p ≠ tmp_path path → w1.fs p = w.fs p) ∧
      update_calls w1.trace = update_calls w.trace ++ [(path, ch)] ∧
      sent_commands w1.trace = sent_commands w.trace ∧
      system_calls w1.trace = system_calls w.trace ∧
      local_calls w1.trace = local_calls w.trace ∧
      (update_succeeds env w path = true →
        ret = 1 ∧ w1.fs path = some (rewrite_all key (snprintf 1024 r)
          ((fs_set w.fs (tmp_path path) (some []) path).getD []).length
          ((fs_set w.fs (tmp_path path) (some []) path).getD []))) ∧
      ∃ ev, w1.trace = w.trace ++ ev := by
  by_cases hs : update_succeeds env w path = true
  · obtain ⟨w1, h1, ht, hf⟩ := update_file_run env w path key fmt ch r hfmt hs
    have hc := update_file_success env w w1 path key fmt ch r hfmt h1
    refine ⟨w1, 1, h1, ?_, ?_, ?_, ?_, ?_, fun _ => ⟨rfl, hc⟩, _, ht⟩
    · intro p hp1 hp2
      rw [hf]
      unfold fs_rename
      split_ifs with h4
      · simp [fs_set, hp2]
      · simp [fs_set, hp1, hp2]
    · rw [ht, update_calls_append]; rfl
    · rw [ht, sent_commands_append]; simp [sent_commands]
    · rw [ht, system_calls_append]; simp [system_calls]
    · rw [ht, local_calls_append]; simp [local_calls]
  · unfold update_file
    simp only [tmp_path_eq, update_loop_eq key fmt ch r hfmt]
    unfold update_succeeds at hs
    split_ifs with a b c
    · refine ⟨_, 0, rfl, fun p _ _ => rfl, ?_, ?_, ?_, ?_, fun h => absurd h hs,
        _, by simp only [log_trace, List.append_assoc]; rfl⟩
      · simp only [log_trace, update_calls_append]; simp [update_calls]
      · simp only [log_trace, sent_commands_append]; simp [sent_commands]
      · simp only [log_trace, system_calls_append]; simp [system_calls]
      · simp only [log_trace, local_calls_append]; simp [local_calls]
    · refine ⟨_, 0, rfl, fun p _ _ => rfl, ?_, ?_, ?_, ?_, fun h => absurd h hs,
        _, by simp only [log_trace, List.append_assoc]; rfl⟩
      · simp only [log_trace, update_calls_append]; simp [update_calls]
      · simp only [log_trace, sent_commands_append]; simp [sent_commands]
      · simp only [log_trace, system_calls_append]; simp [system_calls]
      · simp only [log_trace, local_calls_append]; simp [local_calls]
    · refine ⟨_, 0, rfl, ?_, ?_, ?_, ?_, ?_, fun h => absurd h hs,
        _, by simp only [log_trace, List.append_assoc]; rfl⟩
      · intro p _ hp2
        simp [World.with_fs, fs_set, hp2]
      · simp only [log_trace, update_calls_append]; simp [update_calls, World.with_fs]
      · simp only [log_trace, sent_commands_append]; simp [sent_commands, World.with_fs]
      · simp only [log_trace, system_calls_append]; simp [system_calls, World.with_fs]
      · simp only [log_trace, local_calls_append]; simp [local_calls, World.with_fs]
    · exfalso
      apply hs
      simp only [not_or, Bool.not_eq_false] at a
      simp only [Bool.not_eq_false] at b c
      simp [a.1, b, c, Option.isSome_iff_ne_none, a.2]

/-- A number beyond the range of `long` is stored as the cut of `LONG_MAX` or
`LONG_MIN`; a number within it is cut to its low 32 bits. -/
theorem sscanf_change_channel_saturates :
    sscanf_change_channel "change_channel 99999999999999999999".toList = some (-1) ∧
    sscanf_change_channel "change_channel -9223372036854775809".toList = some 0 ∧
    sscanf_change_channel "change_channel 4294967302".toList = some 6 ∧
    sscanf_change_channel "change_channel -6".toList = some (-6) := by
  decide

theorem save_report_frame (w : World) (a b : Int) :
    (save_report w a b).fs = w.fs ∧
    update_calls (save_report w a b).trace = update_calls w.trace ∧
    sent_commands (save_report w a b).trace = sent_commands w.trace ∧
    system_calls (save_report w a b).trace = system_calls w.trace ∧
    local_calls (save_report w a b).trace = local_calls w.trace ∧
    ∃ ev, (save_report w a b).trace = w.trace ++ ev := by
  unfold save_report
  split_ifs
  · refine ⟨rfl, ?_, ?_, ?_, ?_, _, rfl⟩
    · simp only [log_trace, update_calls_append]; simp [update_calls]
    · simp only [log_trace, sent_commands_append]; simp [sent_commands]
    · simp only [log_trace, system_calls_append]; simp [system_calls]
    · simp only [log_trace, local_calls_append]; simp [local_calls]
  · refine ⟨rfl, ?_, ?_, ?_, ?_, _, rfl⟩
    · simp only [log_trace, update_calls_append]; simp [update_calls]
    · simp only [log_trace, sent_commands_append]; simp [sent_commands]
    · simp only [log_trace, system_calls_append]; simp [system_calls]
    · simp only [log_trace, local_calls_append]; simp [local_calls]
  · refine ⟨rfl, ?_, ?_, ?_, ?_, _, rfl⟩
    · simp only [log_trace, update_calls_append]; simp [update_calls]
    · simp only [log_trace, sent_commands_append]; simp [sent_commands]
    · simp only [log_trace, system_calls_append]; simp [system_calls]
    · simp only [log_trace, local_calls_append]; simp [local_calls]
  · exact ⟨rfl, rfl, rfl, rfl, rfl, [], (List.append_nil _).symm⟩

/-- The content `update_file` leaves in a well-formed file, for the channel
line. -/
theorem persisted_content (n : Int) (hn1 : -2147483648 ≤ n) (hn2 : n < 2147483648)
    (path : Str) (htmp : path ≠ tmp_path path) (fs : Str → Option (List Char)) (c : List Char)
    (hc : fs path = some c) (hnul : NUL ∉ c) (hshort : ∀ l ∈ spec_lines c, l.length ≤ 1023) :
    rewrite_all "wifi_channel".toList (snprintf 1024 (channel_line n))
        ((fs_set fs (tmp_path path) (some []) path).getD []).length
        ((fs_set fs (tmp_path path) (some []) path).getD [])
      = spec_persisted n c := by
  have h0 : fs_set fs (tmp_path path) (some []) path = some c := by
    simp [fs_set, htmp, hc]
  have hl := fmt_d_length n hn1 hn2
  have hr : snprintf 1024 (channel_line n) = channel_line n := by
    unfold snprintf
    apply List.take_of_length_le
    unfold channel_line
    simp only [List.length_append, List.length_singleton]
    have : "wifi_channel = '".toList.length = 16 := by decide
    omega
  rw [h0, Option.getD_some, hr, rewrite_all_spec _ _ _ c (le_refl _) hnul hshort]
  rfl

/-- What `save_new_channel_to_files` does, for a channel in the range of `int`. -/
theorem save_frame (env : Env) (w : World) (n : Int) (hn1 : -2147483648 ≤ n)
    (hn2 : n < 2147483648) :
    ∃ w1, save_new_channel_to_files env w n = some w1 ∧
      update_calls w1.trace = update_calls w.trace ++
        (FILE1, n) :: (if (w.fs FILE2).isSome then [(FILE2, n)] else []) ∧
      sent_commands w1.trace = sent_commands w.trace ∧
      system_calls w1.trace = system_calls w.trace ∧
      local_calls w1.trace = local_calls w.trace ∧
      (∀ c, w.fs FILE1 = some c → update_succeeds env w FILE1 = true → NUL ∉ c →
        (∀ l ∈ spec_lines c, l.length ≤ 1023) → w1.fs FILE1 = some (spec_persisted n c)) ∧
      (∀ c, w.fs FILE2 = some c → update_succeeds env w FILE2 = true → NUL ∉ c →
        (∀ l ∈ spec_lines c, l.length ≤ 1023) → w1.fs FILE2 = some (spec_persisted n c)) ∧
      ∃ ev, w1.trace = w.trace ++ ev := by
  have hfmt : format_int "wifi_channel = '%d'".toList n = some (channel_line n) :=
    format_wifi_channel n
  obtain ⟨wa, ra, ha, fa, ua, sa, ya, la, ca, eva, ta⟩ :=
    update_file_frame env w FILE1 "wifi_channel".toList "wifi_channel = '%d'".toList n _ hfmt
  have e2 : wa.fs FILE2 = w.fs FILE2 := fa FILE2 (by decide) (by decide)
  unfold save_new_channel_to_files
  simp only [show "/etc/wifibroadcast.cfg".toList = FILE1 from rfl,
    show "/config/gs.conf".toList = FILE2 from rfl]
  rw [ha]
  simp only
  by_cases hex : wa.fs FILE2 = none
  · rw [if_pos hex]
    obtain ⟨r1, r2, r3, r4, r5, evr, tr⟩ := save_report_frame
      (wa.log (Event.stderr "File /config/gs.conf does not exist, skipping update.\n".toList)) ra 0
    have hno : (w.fs FILE2).isSome = false := by
      rw [← e2, hex]; rfl
    refine ⟨_, rfl, ?_, ?_, ?_, ?_, ?_, ?_,
      eva ++ [Event.stderr "File /config/gs.conf does not exist, skipping update.\n".toList] ++ evr,
      by rw [tr, log_trace, ta]; simp only [List.append_assoc]⟩
    · rw [r2, log_trace, update_calls_append, ua, hno]
      simp [update_calls]
    · rw [r3, log_trace, sent_commands_append, sa]; simp [sent_commands]
    · rw [r4, log_trace, system_calls_append, ya]; simp [system_calls]
    · rw [r5, log_trace, local_calls_append, la]; simp [local_calls]
    · intro c hc hs hnul hshort
      rw [r1, log_fs, (ca hs).2,
        persisted_content n hn1 hn2 FILE1 (by decide) w.fs c hc hnul hshort]
    · intro c hc
      rw [← e2, hex] at hc
      cases hc
  · rw [if_neg hex]
    obtain ⟨wb, rb, hb, fb, ub, sb, yb, lb, cb, evb, tb⟩ :=
      update_file_frame env wa FILE2 "wifi_channel".toList "wifi_channel = '%d'".toList n _ hfmt
    rw [hb]
    simp only
    obtain ⟨r1, r2, r3, r4, r5, evr, tr⟩ := save_report_frame wb ra rb
    have hyes : (w.fs FILE2).isSome = true := by
      rw [← e2, Option.isSome_iff_ne_none]; exact hex
    refine ⟨_, rfl, ?_, ?_, ?_, ?_, ?_, ?_, eva ++ evb ++ evr,
      by rw [tr, tb, ta]; simp only [List.append_assoc]⟩
    · rw [r2, ub, ua, hyes]
      simp
    · rw [r3, sb, sa]
    · rw [r4, yb, ya]
    · rw [r5, lb, la]
    · intro c hc hs hnul hshort
      rw [r1, fb FILE1 (by decide) (by decide), (ca hs).2,
        persisted_content n hn1 hn2 FILE1 (by decide) w.fs c hc hnul hshort]
    · intro c hc hs hnul hshort
      have hs2 : update_succeeds env wa FILE2 = true := by
        unfold update_succeeds at hs ⊢
        rw [e2]; exact hs
      rw [r1, (cb hs2).2,
        persisted_content n hn1 hn2 FILE2 (by decide) wa.fs c (by rw [e2]; exact hc) hnul hshort]

theorem sscanf_change_channel_range (cmd : Str) (n : Int)
    (h : sscanf_change_channel cmd = some n) : -2147483648 ≤ n ∧ n < 2147483648 := by
  unfold sscanf_change_channel at h
  split at h
  · cases h
  · cases hs : scan_int (skip_ws ‹Str›) with
    | none => rw [hs] at h; cases h
    | some r =>
      rw [hs] at h
      simp only [Option.map_some', Option.some.injEq] at h
      rw [← h]
      exact wrap32_range _

/-! ## The interface registry -/

theorem strtok_name (a rest : Str) (h1 : a ≠ []) (h2 : ' ' ∉ a) :
    strtok (a ++ ' ' :: rest) = some (a, rest) := by
  obtain ⟨c, t, rfl⟩ := List.exists_cons_of_ne_nil h1
  have hc : c ≠ ' ' := by
    intro e; apply h2; rw [e]; exact List.mem_cons_self _ _
  have hd : ((c :: t) ++ ' ' :: rest).dropWhile (fun x => x == ' ') = (c :: t) ++ ' ' :: rest := by
    rw [List.cons_append, List.dropWhile_cons_of_neg (by simpa using hc)]
  have ht : ((c :: t) ++ ' ' :: rest).takeWhile (fun x => x != ' ') = c :: t := by
    rw [List.takeWhile_append_of_pos]
    · simp
    · intro x hx
      simp only [bne_iff_ne, ne_eq]
      intro e; apply h2; rw [← e]; exact hx
  have hdd : ((c :: t) ++ ' ' :: rest).dropWhile (fun x => x != ' ') = ' ' :: rest := by
    rw [List.dropWhile_append_of_pos]
    · simp
    · intro x hx
      simp only [bne_iff_ne, ne_eq]
      intro e; apply h2; rw [← e]; exact hx
  unfold strtok
  rw [hd, ht, hdd]
  simp

theorem strtok_last (a : Str) (h1 : a ≠ []) (h2 : ' ' ∉ a) :
    strtok a = some (a, []) := by
  obtain ⟨c, t, rfl⟩ := List.exists_cons_of_ne_nil h1
  have hc : c ≠ ' ' := by
    intro e; apply h2; rw [e]; exact List.mem_cons_self _ _
  have hd : (c :: t).dropWhile (fun x => x == ' ') = c :: t := by
    rw [List.dropWhile_cons_of_neg (by simpa using hc)]
  have hall : ∀ x ∈ c :: t, (x != ' ') = true := by
    intro x hx
    simp only [bne_iff_ne, ne_eq]
    intro e; apply h2; rw [← e]; exact hx
  have ht : (c :: t).takeWhile (fun x => x != ' ') = c :: t :=
    List.takeWhile_eq_self_iff.mpr hall
  have hdd : (c :: t).dropWhile (fun x => x != ' ') = [] :=
    List.dropWhile_eq_nil_iff.mpr hall
  unfold strtok
  rw [hd, ht, hdd]
  simp

/-- Tokenising names joined by single spaces gives the names back. -/
theorem strtok_loop_join (names : List Str) (h : ∀ a ∈ names, a ≠ [] ∧ ' ' ∉ a) (fuel : Nat)
    (hf : names.length ≤ fuel) : strtok_loop fuel (join_spaces names) = names := by
  induction names generalizing fuel with
  | nil => cases fuel <;> simp [strtok_loop, join_spaces, strtok]
  | cons a t ih =>
    obtain ⟨f, rfl⟩ : ∃ f, fuel = f + 1 := ⟨fuel - 1, by simp at hf; omega⟩
    obtain ⟨ha1, ha2⟩ := h a (List.mem_cons_self _ _)
    cases t with
    | nil =>
      rw [join_spaces, strtok_loop, strtok_last a ha1 ha2]
      cases f <;> simp [strtok_loop, strtok]
    | cons b u =>
      rw [join_spaces, strtok_loop, strtok_name a _ ha1 ha2]
      simp only
      rw [ih (fun x hx => h x (List.mem_cons_of_mem _ hx)) f (by simp at hf ⊢; omega)]

theorem join_spaces_length (names : List Str) (h : ∀ a ∈ names, a ≠ []) :
    names.length ≤ (join_spaces names).length := by
  induction names with
  | nil => simp
  | cons a t ih =>
    have ha : 0 < a.length := List.length_pos.mpr (h a (List.mem_cons_self _ _))
    cases t with
    | nil => simp [join_spaces]; omega
    | cons b u =>
      have := ih (fun x hx => h x (List.mem_cons_of_mem _ hx))
      simp only [join_spaces, List.length_append, List.length_cons] at this ⊢
      omega

theorem strip_quotes_quoted (body : Str) :
    strip_quotes ('"' :: body ++ ['"']) = body := by
  unfold strip_quotes
  have h1 : 2 ≤ ('"' :: body ++ ['"']).length := by simp
  have h2 : ('"' :: body ++ ['"']).head? = some '"' := rfl
  have h3 : ('"' :: body ++ ['"']).getLast? = some '"' := by
    have : '"' :: body ++ ['"'] = ('"' :: body) ++ ['"'] := rfl
    rw [this, List.getLast?_append]
    simp
  rw [if_pos ⟨h1, h2, h3⟩]
  simp

theorem strncmp_key (l : List Char) (h : strncmp_eq (cstr l) NICS_KEY 9 = true) :
    NICS_KEY <+: l := by
  unfold strncmp_eq at h
  simp only [beq_iff_eq] at h
  have hk : NICS_KEY.take 9 = NICS_KEY := by decide
  rw [hk] at h
  have h1 : NICS_KEY <+: cstr l := by
    rw [← h]; exact List.take_prefix _ _
  exact h1.trans (List.takeWhile_prefix _)

theorem line_split_no_newline (s : List Char) (h : '\n' ∉ (line_split s).1) :
    (line_split s).2 = [] := by
  induction s with
  | nil => rfl
  | cons c t ih =>
    unfold line_split at h ⊢
    split_ifs at h ⊢ with hc
    · exfalso; apply h; rw [hc]; exact List.mem_cons_self _ _
    · exact ih (fun hm => h (List.mem_cons_of_mem _ hm))

theorem line_split_all (s : List Char) (h : '\n' ∉ s) : line_split s = (s, []) := by
  induction s with
  | nil => rfl
  | cons c t ih =>
    have hc : c ≠ '\n' := by
      intro e; apply h; rw [e]; exact List.mem_cons_self _ _
    rw [line_split, if_neg hc, ih (fun hm => h (List.mem_cons_of_mem _ hm))]

theorem nics_line_eq (names : List Str) :
    nics_line names = NICS_KEY ++ ('"' :: join_spaces names ++ ['"']) := by
  simp [nics_line]

theorem fgets_take_exact (l y : List Char) (h : '\n' ∉ l) :
    fgets_take l.length (l ++ y) = (l, y) := by
  induction l with
  | nil => rfl
  | cons c t ih =>
    have hc : c ≠ '\n' := by
      intro e; apply h; rw [e]; exact List.mem_cons_self _ _
    have := ih (fun hm => h (List.mem_cons_of_mem _ hm))
    rw [List.length_cons, List.cons_append, fgets_take, if_neg hc, this]

/-- The scan of `get_nics` passes over short lines that do not begin with the
key. -/
theorem get_nics_scan_skip (ls : List (List Char)) :
    ∀ (content : List Char) (tl : List (List Char)) (fuel : Nat),
      content.length ≤ fuel → spec_lines content = ls ++ tl →
      (∀ l ∈ ls, ¬ NICS_KEY <+: l ∧ l.length ≤ 255) →
      ∃ rest fuel2, rest.length ≤ fuel2 ∧ spec_lines rest = tl ∧
        get_nics_scan fuel content = get_nics_scan fuel2 rest := by
  induction ls with
  | nil =>
    intro content tl fuel hf hs _
    exact ⟨content, fuel, hf, by simpa using hs, rfl⟩
  | cons l ls2 ih =>
    intro content tl fuel hf hs hl
    cases content with
    | nil => simp [spec_lines] at hs
    | cons c s =>
      rw [spec_lines_cons, List.cons_append, List.cons.injEq] at hs
      obtain ⟨h1, h2⟩ := hs
      obtain ⟨hk, hlen⟩ := hl l (List.mem_cons_self _ _)
      have hlt := line_split_snd_length c s
      obtain ⟨f, rfl⟩ : ∃ f, fuel = f + 1 := ⟨fuel - 1, by simp at hf; omega⟩
      have hfg : fgets 256 (c :: s) = some (line_split (c :: s)) := by
        unfold fgets
        rw [if_neg (by simp)]
        simp only [show 256 - 1 = 255 from rfl]
        rw [fgets_take_line 255 (c :: s) (by rw [h1]; exact hlen)]
      rcases hls : line_split (c :: s) with ⟨l1, rest⟩
      rw [hls] at hfg h1 h2 hlt
      simp only at h1 h2 hlt
      subst h1
      have hno : strncmp_eq (cstr l1) "WFB_NICS=".toList 9 = false := by
        cases hb : strncmp_eq (cstr l1) "WFB_NICS=".toList 9 with
        | false => rfl
        | true => exact absurd (strncmp_key l1 hb) hk
      obtain ⟨rest2, fuel2, a1, a2, a3⟩ := ih rest tl f
        (by simp only [List.length_cons] at hlt hf; omega) h2
        (fun x hx => hl x (List.mem_cons_of_mem _ hx))
      refine ⟨rest2, fuel2, a1, a2, ?_⟩
      rw [← a3, get_nics_scan, hfg]
      simp only [hno, Bool.false_eq_true, if_false]

theorem join_spaces_mem (names : List Str) (c : Char) (h : c ∈ join_spaces names) :
    c = ' ' ∨ ∃ a ∈ names, c ∈ a := by
  induction names with
  | nil => simp [join_spaces] at h
  | cons a t ih =>
    cases t with
    | nil =>
      simp only [join_spaces] at h
      exact Or.inr ⟨a, List.mem_cons_self _ _, h⟩
    | cons b u =>
      simp only [join_spaces, List.mem_append, List.mem_cons] at h
      rcases h with h | h | h
      · exact Or.inr ⟨a, List.mem_cons_self _ _, h⟩
      · exact Or.inl h
      · rcases ih h with h | ⟨x, hx, hc⟩
        · exact Or.inl h
        · exact Or.inr ⟨x, List.mem_cons_of_mem _ hx, hc⟩

/-- The characters of a configuration line built from admissible names. -/
theorem nics_line_chars (names : List Str) (hn : ∀ a ∈ names, name_ok a) :
    ∀ c ∈ '"' :: join_spaces names ++ ['"'], c ≠ '\n' ∧ c ≠ '\r' ∧ c ≠ NUL := by
  intro c hc
  simp only [List.cons_append, List.mem_cons, List.mem_append, List.mem_singleton,
    List.not_mem_nil, or_false] at hc
  rcases hc with h | h | h
  · subst h; decide
  · rcases join_spaces_mem names c h with h | ⟨a, ha, hca⟩
    · subst h; decide
    · obtain ⟨_, _, h3, h4, h5⟩ := hn a ha
      exact ⟨fun e => h3 (e ▸ hca), fun e => h4 (e ▸ hca), fun e => h5 (e ▸ hca)⟩
  · subst h; decide

/-- What the scan of `get_nics` takes from a buffer that holds the
configuration line, with or without its newline. -/
theorem key_line_value (q e : List Char) (hq : ∀ c ∈ q, c ≠ '\n' ∧ c ≠ '\r' ∧ c ≠ NUL)
    (he : e = [] ∨ e = ['\n']) :
    strncmp_eq (cstr (NICS_KEY ++ q ++ e)) "WFB_NICS=".toList 9 = true ∧
    cut_eol (((cstr (NICS_KEY ++ q ++ e)).dropWhile (fun c => c != '=')).drop 1) = q := by
  have hnul : NUL ∉ NICS_KEY ++ q ++ e := by
    intro hm
    simp only [List.mem_append] at hm
    rcases hm with (h | h) | h
    · revert h; decide
    · exact (hq _ h).2.2 rfl
    · rcases he with he | he <;> subst he <;> simp [NUL] at h
  rw [cstr_of_not_mem _ hnul]
  constructor
  · unfold strncmp_eq
    have : (NICS_KEY ++ q ++ e).take 9 = NICS_KEY := by
      rw [List.append_assoc, show 9 = NICS_KEY.length from rfl, List.take_left]
    rw [this]
    decide
  · have : ((NICS_KEY ++ q ++ e).dropWhile (fun c => c != '=')).drop 1 = q ++ e := by
      rw [List.append_assoc]
      simp [NICS_KEY, List.dropWhile]
    rw [this]
    unfold cut_eol
    rw [List.takeWhile_append_of_pos]
    · rcases he with he | he <;> subst he <;> simp
    · intro c hc
      have := hq c hc
      simp [this.1, this.2.1]

theorem nics_line_no_newline (names : List Str) (hn : ∀ a ∈ names, name_ok a) :
    '\n' ∉ nics_line names := by
  intro hm
  rw [nics_line_eq, List.mem_append] at hm
  rcases hm with h | h
  · revert h; decide
  · exact (nics_line_chars names hn _ h).1 rfl

/-- The scan of `get_nics` at the configuration line. -/
theorem get_nics_scan_key (names : List Str) (hn : ∀ a ∈ names, name_ok a)
    (hlen : (nics_line names).length ≤ 255) (rest : List Char) (fuel : Nat)
    (hf : rest.length ≤ fuel)
    (hr : rest = nics_line names ∨ ∃ y, rest = nics_line names ++ '\n' :: y) :
    get_nics_scan fuel rest = '"' :: join_spaces names ++ ['"'] := by
  have hnl := nics_line_no_newline names hn
  have hne : rest ≠ [] := by
    rcases hr with h | ⟨y, h⟩ <;> subst h <;> simp [nics_line, NICS_KEY]
  obtain ⟨f, rfl⟩ : ∃ f, fuel = f + 1 :=
    ⟨fuel - 1, by have := List.length_pos.mpr hne; omega⟩
  have hchunk : ∃ e tl, (e = [] ∨ e = ['\n']) ∧
      fgets_take 255 rest = (nics_line names ++ e, tl) := by
    rcases hr with h | ⟨y, h⟩
    · subst h
      refine ⟨[], [], Or.inl rfl, ?_⟩
      rw [List.append_nil, fgets_take_line 255 _ (by rw [line_split_all _ hnl]; exact hlen),
        line_split_all _ hnl]
    · subst h
      by_cases hl : (nics_line names).length < 255
      · exact ⟨['\n'], y, Or.inr rfl, fgets_take_newline 255 _ y hnl hl⟩
      · have h255 : (nics_line names).length = 255 := by omega
        refine ⟨[], '\n' :: y, Or.inl rfl, ?_⟩
        rw [← h255, List.append_nil]
        exact fgets_take_exact _ _ hnl
  obtain ⟨e, tl, he, hft⟩ := hchunk
  obtain ⟨k1, k2⟩ := key_line_value ('"' :: join_spaces names ++ ['"']) e
    (nics_line_chars names hn) he
  have hfg : fgets 256 rest = some (nics_line names ++ e, tl) := by
    unfold fgets
    rw [if_neg hne]
    simp only [show 256 - 1 = 255 from rfl]
    rw [hft]
  rw [get_nics_scan, hfg]
  simp only
  rw [nics_line_eq, if_pos k1, k2]

/-! ## The scan of `set_video_mode` accepts the documented shape -/

theorem drop_takeWhile_length (p : Char → Bool) (l : List Char) :
    l.drop (l.takeWhile p).length = l.dropWhile p := by
  induction l with
  | nil => rfl
  | cons c t ih =>
    by_cases h : p c = true
    · simp [List.takeWhile, List.dropWhile, h, ih]
    · simp [List.takeWhile, List.dropWhile, h]

theorem isspace_not_isdigit (c : Char) (h : isspace c = true) : isdigit c = false := by
  unfold isspace at h
  simp only [Bool.or_eq_true, beq_iff_eq] at h
  rcases h with ((((h | h) | h) | h) | h) | h <;> subst h <;> decide

/-- A field of non-space characters followed by a space or nothing. -/
theorem field_split (r : Str) :
    r = r.takeWhile (fun c => !isspace c) ++ r.dropWhile (fun c => !isspace c) ∧
    (∀ c ∈ r.takeWhile (fun c => !isspace c), isspace c = false) ∧
    (∀ c t, r.dropWhile (fun c => !isspace c) = c :: t → isspace c = true) := by
  refine ⟨(List.takeWhile_append_dropWhile _ _).symm, ?_, ?_⟩
  · intro c hc
    have := List.mem_takeWhile_imp hc
    simpa using this
  · intro c t ht
    have hne : r.dropWhile (fun c => !isspace c) ≠ [] := by rw [ht]; simp
    have := List.head_dropWhile_not (fun c => !isspace c) r hne
    simp only [ht, List.head_cons] at this
    simpa using this

/-- The conversion `%d` reads an integer field and stops at the space after
it. -/
theorem scan_int_field (i rB : Str) (hi : spec_is_integer i = true)
    (hnsp : ∀ c ∈ i, isspace c = false)
    (hB : ∀ c t, rB = c :: t → isspace c = true) :
    ∃ v, scan_int (i ++ rB) = some (v, rB) := by
  unfold spec_is_integer at hi
  simp only [Bool.and_eq_true, bne_iff_ne, ne_eq, List.all_eq_true] at hi
  obtain ⟨hne, hdig⟩ := hi
  cases i with
  | nil => exact absurd rfl hne
  | cons c t =>
    have hc : isspace c = false := hnsp c (List.mem_cons_self _ _)
    have hskip : skip_ws ((c :: t) ++ rB) = (c :: t) ++ rB := by
      unfold skip_ws
      rw [List.cons_append, List.dropWhile_cons_of_neg (by simp [hc])]
    have hsign : (scan_sign ((c :: t) ++ rB)).1 = (scan_sign (c :: t)).1 ∧
        (scan_sign ((c :: t) ++ rB)).2 = (scan_sign (c :: t)).2 ++ rB := by
      simp only [List.cons_append, scan_sign]
      split_ifs <;> simp
    have htake : ((scan_sign (c :: t)).2 ++ rB).takeWhile isdigit = (scan_sign (c :: t)).2 := by
      rw [List.takeWhile_append_of_pos hdig]
      cases rB with
      | nil => simp
      | cons d u =>
        have := isspace_not_isdigit d (hB d u rfl)
        simp [List.takeWhile, this]
    have hdrop : ((scan_sign (c :: t)).2 ++ rB).dropWhile isdigit = rB := by
      rw [List.dropWhile_append_of_pos hdig]
      cases rB with
      | nil => simp
      | cons d u =>
        have := isspace_not_isdigit d (hB d u rfl)
        simp [List.dropWhile, this]
    unfold scan_int
    simp only [hskip, hsign.1, hsign.2, htake, hdrop, if_neg hne]
    exact ⟨_, rfl⟩

/-- Every line of the documented shape is scanned into four fields. -/
theorem spec_video_mode_scans (cmd : Str) (h : spec_video_mode cmd = true) :
    sscanf_set_video_mode cmd = 4 := by
  unfold spec_video_mode at h
  unfold sscanf_set_video_mode
  cases hm : match_lit "set_video_mode".toList cmd with
  | none => rw [hm] at h; cases h
  | some r0 =>
    rw [hm] at h
    simp only [Bool.and_eq_true, decide_eq_true_eq] at h
    obtain ⟨⟨⟨⟨htok1, htok2⟩, hi1⟩, hi2⟩, hq⟩ := h
    simp only
    -- the token
    obtain ⟨e1, n1, b1⟩ := field_split (skip_ws r0)
    have hr1 : skip_ws r0 ≠ [] := by
      intro e
      rw [e] at htok1
      simp at htok1
    rw [if_neg hr1]
    have hsize : ((skip_ws r0).takeWhile (fun c => !isspace c)).take 31
        = (skip_ws r0).takeWhile (fun c => !isspace c) := List.take_of_length_le htok2
    rw [hsize, drop_takeWhile_length]
    -- the first integer
    obtain ⟨e2, n2, b2⟩ := field_split (skip_ws ((skip_ws r0).dropWhile (fun c => !isspace c)))
    obtain ⟨v1, hv1⟩ := scan_int_field _ _ hi1 n2 b2
    rw [← e2] at hv1
    rw [hv1]
    simp only
    -- the second integer
    obtain ⟨e3, n3, b3⟩ := field_split (skip_ws ((skip_ws ((skip_ws r0).dropWhile
      (fun c => !isspace c))).dropWhile (fun c => !isspace c)))
    obtain ⟨v2, hv2⟩ := scan_int_field _ _ hi2 n3 b3
    rw [← e3] at hv2
    rw [hv2]
    simp only
    -- the quoted text
    cases hr4 : skip_ws ((skip_ws ((skip_ws ((skip_ws r0).dropWhile
      (fun c => !isspace c))).dropWhile (fun c => !isspace c))).dropWhile
      (fun c => !isspace c)) with
    | nil => rw [hr4] at hq; simp [spec_is_quoted] at hq
    | cons q t =>
      rw [hr4] at hq
      simp only [spec_is_quoted, Bool.and_eq_true, beq_iff_eq, decide_eq_true_eq,
        List.all_eq_true, bne_iff_ne, ne_eq] at hq
      obtain ⟨⟨⟨hq1, hlast⟩, hlen⟩, hall⟩ := hq
      simp only
      rw [if_pos hq1]
      obtain ⟨body, hbody⟩ := List.getLast?_eq_some_iff.mp hlast
      subst hbody
      rw [List.dropLast_concat] at hall
      have hb : body ≠ [] := by
        intro e; subst e; simp at hlen
      have htw : (body ++ [QUOTE]).takeWhile (fun c => c != QUOTE) = body := by
        rw [List.takeWhile_append_of_pos (by
          intro c hc
          simp only [bne_iff_ne, ne_eq]
          exact hall c hc)]
        simp
      rw [htw]
      have : body.take 127 ≠ [] := by
        obtain ⟨c, u, rfl⟩ := List.exists_cons_of_ne_nil hb
        simp
      rw [if_neg this]

/-! ## The loops end on their own

Each loop of the program is embedded with a bound on its rounds, set to the
length of its input.  The loops consume at least one byte per round, so the
bound is never what ends them: any larger bound gives the same result. -/

theorem fgets_rest_length (size : Nat) (hs : 2 ≤ size) (inp chunk rest : List Char)
    (h : fgets size inp = some (chunk, rest)) : rest.length < inp.length := by
  unfold fgets at h
  split_ifs at h with he
  cases inp with
  | nil => exact absurd rfl he
  | cons c s =>
    obtain ⟨k, hk⟩ : ∃ k, size - 1 = k + 1 := ⟨size - 2, by omega⟩
    rw [hk] at h
    have := (fgets_take_length k c s).2
    simp only [Option.some.injEq] at h
    rw [h] at this
    exact this

/-- More rounds than bytes change nothing in the loop of `update_file`. -/
theorem update_loop_fuel (key fmt : Str) (ch : Int) (f1 f2 : Nat) (inp out : List Char)
    (h1 : inp.length ≤ f1) (h2 : inp.length ≤ f2) :
    update_loop key fmt ch f1 inp out = update_loop key fmt ch f2 inp out := by
  induction f1 generalizing f2 inp out with
  | zero =>
    have : inp = [] := List.length_eq_zero.mp (by omega)
    subst this
    cases f2 <;> simp [update_loop, fgets]
  | succ a ih =>
    cases inp with
    | nil => cases f2 <;> simp [update_loop, fgets]
    | cons c s =>
      obtain ⟨b, rfl⟩ : ∃ b, f2 = b + 1 := ⟨f2 - 1, by simp at h2; omega⟩
      unfold update_loop
      cases hf : fgets 1024 (c :: s) with
      | none => rfl
      | some p =>
        obtain ⟨chunk, rest⟩ := p
        have hl := fgets_rest_length 1024 (by omega) _ _ _ hf
        simp only [List.length_cons] at hl h1 h2
        simp only
        split_ifs
        · cases format_int fmt ch with
          | none => rfl
          | some r => exact ih b rest _ (by omega) (by omega)
        · exact ih b rest _ (by omega) (by omega)

/-- More rounds than bytes change nothing in the scan of `get_nics`. -/
theorem get_nics_scan_fuel (f1 f2 : Nat) (inp : List Char)
    (h1 : inp.length ≤ f1) (h2 : inp.length ≤ f2) :
    get_nics_scan f1 inp = get_nics_scan f2 inp := by
  induction f1 generalizing f2 inp with
  | zero =>
    have : inp = [] := List.length_eq_zero.mp (by omega)
    subst this
    cases f2 <;> simp [get_nics_scan, fgets]
  | succ a ih =>
    cases inp with
    | nil => cases f2 <;> simp [get_nics_scan, fgets]
    | cons c s =>
      obtain ⟨b, rfl⟩ : ∃ b, f2 = b + 1 := ⟨f2 - 1, by simp at h2; omega⟩
      unfold get_nics_scan
      cases hf : fgets 256 (c :: s) with
      | none => rfl
      | some p =>
        obtain ⟨chunk, rest⟩ := p
        have hl := fgets_rest_length 256 (by omega) _ _ _ hf
        simp only [List.length_cons] at hl h1 h2
        simp only
        split_ifs
        · rfl
        · exact ih b rest (by omega) (by omega)

theorem strtok_rest_length (s tok rest : Str) (h : strtok s = some (tok, rest)) :
    rest.length < s.length := by
  unfold strtok at h
  split_ifs at h with he
  simp only [Option.some.injEq, Prod.mk.injEq] at h
  obtain ⟨_, hr⟩ := h
  rw [← hr]
  have h1 : (s.dropWhile (fun c => c == ' ')).length ≤ s.length :=
    (List.dropWhile_suffix _).length_le
  have h2 := List.takeWhile_append_dropWhile (fun c => c != ' ')
    (s.dropWhile (fun c => c == ' '))
  have h3 := congrArg List.length h2
  rw [List.length_append] at h3
  have h4 : 0 < ((s.dropWhile (fun c => c == ' ')).takeWhile (fun c => c != ' ')).length := by
    have hc := List.head_dropWhile_not (fun c => c == ' ') s he
    generalize s.dropWhile (fun c => c == ' ') = d at he hc
    cases d with
    | nil => exact absurd rfl he
    | cons c t =>
      simp only [List.head_cons] at hc
      rw [List.takeWhile_cons_of_pos (by simpa using hc)]
      simp
  rw [List.length_drop]
  omega

/-- More rounds than characters change nothing in the token loop of
`get_nics`. -/
theorem strtok_loop_fuel (f1 f2 : Nat) (s : Str) (h1 : s.length ≤ f1) (h2 : s.length ≤ f2) :
    strtok_loop f1 s = strtok_loop f2 s := by
  induction f1 generalizing f2 s with
  | zero =>
    have : s = [] := List.length_eq_zero.mp (by omega)
    subst this
    cases f2 <;> simp [strtok_loop, strtok]
  | succ a ih =>
    cases hs : strtok s with
    | none => cases f2 <;> simp [strtok_loop, hs]
    | some p =>
      obtain ⟨tok, rest⟩ := p
      have hl := strtok_rest_length s tok rest hs
      obtain ⟨b, rfl⟩ : ∃ b, f2 = b + 1 := ⟨f2 - 1, by omega⟩
      simp only [strtok_loop, hs]
      rw [ih b rest (by omega) (by omega)]

/-! # The claims -/

/-! ## C1 -/

/-- C1, amended: for every command `change_channel <n>` whose exchange takes place
(`send_command_get_response` returns 0) and whose reply contains "Failed" in the part
the one `read` stores in the response buffer, that is within its first 1023 bytes and
before any NUL byte, `main` ends with status 0 and has made no local change: no file is
altered, nothing is run through `system` (no `set channel` for any interface, no probe),
neither `local_change_channel` nor `update_file` is called, and
`send_command_get_response` is called once, with the command itself, which is not
`confirm_channel_change`. -/
theorem change_channel_rejected (env : Env) (w : World) (ip cmd resp : Str) (rest : List Str)
    (n : Int)
    (hverb : strncmp_eq cmd "change_channel".toList 14 = true)
    (hparse : sscanf_change_channel cmd = some n)
    (hsent : (send_command_get_response env (capture_orig env w).1 ip cmd resp
      BUF_SIZE).2.2 = 0)
    (hfailed : strstr (cstr ((env.recv w.n_read).take (BUF_SIZE - 1))) "Failed".toList = true) :
    ∃ w1, main env w (ip :: cmd :: rest) resp = some (w1, 0) ∧
      w1.fs = w.fs ∧
      system_calls w1.trace = system_calls w.trace ∧
      local_calls w1.trace = local_calls w.trace ∧
      update_calls w1.trace = update_calls w.trace ∧
      sent_commands w1.trace = sent_commands w.trace ++ [cmd] ∧
      cmd ≠ "confirm_channel_change".toList := by
  have hbuf : strstr (send_command_get_response env (capture_orig env w).1 ip cmd resp
      BUF_SIZE).2.1 "Failed".toList = true := by
    rw [(send_success env (capture_orig env w).1 ip cmd resp BUF_SIZE hsent).2,
      capture_orig_n_read]
    by_cases he : (env.recv w.n_read).take (BUF_SIZE - 1) = []
    · rw [he, strstr_cstr_nil] at hfailed
      exact absurd hfailed (by decide)
    · rw [if_neg he]
      exact hfailed
  obtain ⟨c1, c2, c3, c4, c5, c6⟩ := capture_orig_frame env w
  obtain ⟨s1, s2, s3, s4, s5⟩ := send_readings env (capture_orig env w).1 ip cmd resp BUF_SIZE
  obtain ⟨f1, _, _⟩ := send_frame env (capture_orig env w).1 ip cmd resp BUF_SIZE
  refine ⟨_, by simp only [main, hverb, hparse, change_channel, hbuf, if_true]; rfl,
    ?_, ?_, ?_, ?_, ?_, verb_ne_confirm cmd hverb⟩
  · simp [f1, c1]
  · simp only [log_trace, system_calls_append, s1, c3]; simp [system_calls]
  · simp only [log_trace, local_calls_append, s2, c4]; simp [local_calls]
  · simp only [log_trace, update_calls_append, s3, c5]; simp [update_calls]
  · simp only [log_trace, sent_commands_append, s4, c6]; simp [sent_commands]

set_option maxRecDepth 100000 in
/-- C1 as amended applies to a node that answers `Failed: busy` to `change_channel 6`.
-/
theorem change_channel_rejected_witness :
    strncmp_eq "change_channel 6".toList "change_channel".toList 14 = true ∧
    sscanf_change_channel "change_channel 6".toList = some 6 ∧
    (send_command_get_response env_rejecting (capture_orig env_rejecting world0).1 ip0
      "change_channel 6".toList [] BUF_SIZE).2.2 = 0 ∧
    strstr (cstr ((env_rejecting.recv world0.n_read).take (BUF_SIZE - 1))) "Failed".toList
      = true ∧
    ∃ w1, main env_rejecting world0 [ip0, "change_channel 6".toList] [] = some (w1, 0) ∧
      w1.fs = world0.fs ∧
      system_calls w1.trace = system_calls world0.trace ∧
      local_calls w1.trace = local_calls world0.trace ∧
      update_calls w1.trace = update_calls world0.trace ∧
      sent_commands w1.trace = sent_commands world0.trace ++ ["change_channel 6".toList] ∧
      "change_channel 6".toList ≠ "confirm_channel_change".toList :=
  ⟨by decide, by decide, by decide, by decide,
   change_channel_rejected env_rejecting world0 ip0 "change_channel 6".toList [] [] 6
     (by decide) (by decide) (by decide) (by decide)⟩

set_option maxRecDepth 1000000 in
/-- C1 as stated fails: a reply of 1032 bytes that holds "Failed" behind 1020 other
bytes, and a reply that holds it behind a NUL byte, both contain "Failed", yet the
response buffer does not, and `main` sets wlan0 to channel 6, runs a probe, calls
`send_command_get_response` with `confirm_channel_change` and rewrites
/etc/wifibroadcast.cfg to channel 6. -/
theorem change_channel_rejected_counterexample :
    -- the rejection lies behind the 1023 bytes the buffer takes
    (strstr (env_late_reject.recv world0.n_read) "Failed".toList = true ∧
     strstr (cstr ((env_late_reject.recv world0.n_read).take (BUF_SIZE - 1))) "Failed".toList
       = false ∧
     (send_command_get_response env_late_reject (capture_orig env_late_reject world0).1 ip0
        "change_channel 6".toList [] BUF_SIZE).2.2 = 0 ∧
     (main env_late_reject world0 [ip0, "change_channel 6".toList] []).map
        (fun r => (local_calls r.1.trace, system_calls r.1.trace, sent_commands r.1.trace))
      = some ([6],
          ["iw dev wlan0 set channel 6".toList, "ping -c1 -W1 192.168.1.10 >/dev/null".toList],
          ["change_channel 6".toList, "confirm_channel_change".toList]) ∧
     (main env_late_reject world0 [ip0, "change_channel 6".toList] []).map
        (fun r => (update_calls r.1.trace, r.1.fs FILE1))
      = some ([(FILE1, 6)], some "[wifi]\nwifi_channel = '6'\nwifi_region = 'BO'\n".toList)) ∧
    -- the rejection follows a NUL byte
    (strstr (env_nul_reject.recv world0.n_read) "Failed".toList = true ∧
     strstr (cstr ((env_nul_reject.recv world0.n_read).take (BUF_SIZE - 1))) "Failed".toList
       = false ∧
     (send_command_get_response env_nul_reject (capture_orig env_nul_reject world0).1 ip0
        "change_channel 6".toList [] BUF_SIZE).2.2 = 0 ∧
     (main env_nul_reject world0 [ip0, "change_channel 6".toList] []).map
        (fun r => (local_calls r.1.trace, system_calls r.1.trace, sent_commands r.1.trace))
      = some ([6],
          ["iw dev wlan0 set channel 6".toList, "ping -c1 -W1 192.168.1.10 >/dev/null".toList],
          ["change_channel 6".toList, "confirm_channel_change".toList]) ∧
     (main env_nul_reject world0 [ip0, "change_channel 6".toList] []).map
        (fun r => (update_calls r.1.trace, r.1.fs FILE1))
      = some ([(FILE1, 6)], some "[wifi]\nwifi_channel = '6'\nwifi_region = 'BO'\n".toList)) := by
  refine ⟨⟨by decide!, by decide!, by decide!, by decide!, by decide!⟩,
    ⟨by decide, by decide, by decide, by decide, by decide⟩⟩

/-! ## C2 -/

/-- C2: for every command `change_channel <n>`, n being the `int` the scan of the
command stores, whose reply does not contain "Failed" and whose five probes all fail,
with c the number `atoi` reads in the text captured from the first interface before the
change: the commands run through `system` are `set channel n` for every interface of the
registry, then the five probes, then `set channel c` for every interface;
`local_change_channel` is called with n and then with c; `update_file` is never called
and no file is altered; `send_command_get_response` is called once, with the command
itself, which is not `confirm_channel_change`. -/
theorem change_channel_rollback (env : Env) (w : World) (ip cmd resp : Str) (rest : List Str)
    (n : Int)
    (hverb : strncmp_eq cmd "change_channel".toList 14 = true)
    (hparse : sscanf_change_channel cmd = some n)
    (hreply : strstr (send_command_get_response env (capture_orig env w).1 ip cmd resp
      BUF_SIZE).2.1 "Failed".toList = false)
    (hprobe : ∀ i, i < 5 →
      env.system_ret (w.n_system + (nics_of env w).length + i) (ping_cmd ip) ≠ 0) :
    ∃ w1, main env w (ip :: cmd :: rest) resp = some (w1, 0) ∧
      w1.fs = w.fs ∧
      system_calls w1.trace = system_calls w.trace
        ++ (nics_of env w).map (fun nic => iw_set_channel nic n)
        ++ List.replicate 5 (ping_cmd ip)
        ++ (nics_of env w).map (fun nic => iw_set_channel nic (atoi (capture_orig env w).2)) ∧
      local_calls w1.trace = local_calls w.trace ++ [n, atoi (capture_orig env w).2] ∧
      update_calls w1.trace = update_calls w.trace ∧
      sent_commands w1.trace = sent_commands w.trace ++ [cmd] ∧
      cmd ≠ "confirm_channel_change".toList := by
  obtain ⟨c1, c2, c3, c4, c5, c6⟩ := capture_orig_frame env w
  obtain ⟨s1, s2, s3, s4, s5⟩ := send_readings env (capture_orig env w).1 ip cmd resp BUF_SIZE
  obtain ⟨f1, f2, _⟩ := send_frame env (capture_orig env w).1 ip cmd resp BUF_SIZE
  -- the state after the reply was printed
  set w2 := ((send_command_get_response env (capture_orig env w).1 ip cmd resp BUF_SIZE).1.log
    (Event.stdout ((send_command_get_response env (capture_orig env w).1 ip cmd resp
      BUF_SIZE).2.1 ++ "\n".toList))).log (Event.sleep 1) with hw2
  have w2fs : w2.fs = w.fs := by simp [hw2, f1, c1]
  have w2n : w2.n_system = w.n_system := by simp [hw2, f2, c2]
  have w2nics : nics_of env w2 = nics_of env w := by
    unfold nics_of; rw [get_nics_congr env w w2 w2fs]
  obtain ⟨l1, l2, l3⟩ := local_change_channel_frame env w2 n
  rw [w2nics] at l2 l3
  obtain ⟨p1, p2, p3, p4⟩ := ping_loop_all_fail env ip 5 (local_change_channel env w2 n) (by
    intro i hi
    rw [l2, w2n]
    exact hprobe i hi)
  set w4 := (ping_loop env ip 5 (local_change_channel env w2 n)).1 with hw4
  set w5 := w4.log (Event.stdout ("No contact; reverting to channel ".toList ++
    (capture_orig env w).2 ++ "\n".toList)) with hw5
  have w5fs : w5.fs = w.fs := by simp [hw5, p2, l1, w2fs]
  have w5nics : nics_of env w5 = nics_of env w := by
    unfold nics_of; rw [get_nics_congr env w w5 w5fs]
  obtain ⟨r1, r2, r3⟩ := local_change_channel_frame env w5 (atoi (capture_orig env w).2)
  rw [w5nics] at r2 r3
  have hmain : main env w (ip :: cmd :: rest) resp
      = some (local_change_channel env w5 (atoi (capture_orig env w).2), 0) := by
    simp only [main, hverb, hparse, change_channel, hreply, if_true, ← hw2, p1,
      Bool.false_eq_true, if_false]
  have ht : (local_change_channel env w5 (atoi (capture_orig env w).2)).trace
      = (send_command_get_response env (capture_orig env w).1 ip cmd resp BUF_SIZE).1.trace
        ++ ([Event.stdout ((send_command_get_response env (capture_orig env w).1 ip cmd resp
              BUF_SIZE).2.1 ++ "\n".toList), Event.sleep 1]
          ++ (Event.call_local_change_channel n ::
              (nics_of env w).map (fun nic => Event.system (iw_set_channel nic n)))
          ++ (List.replicate 5 [Event.system (ping_cmd ip), Event.sleep 1]).flatten
          ++ [Event.stdout ("No contact; reverting to channel ".toList ++
                (capture_orig env w).2 ++ "\n".toList)]
          ++ (Event.call_local_change_channel (atoi (capture_orig env w).2) ::
              (nics_of env w).map
                (fun nic => Event.system (iw_set_channel nic (atoi (capture_orig env w).2))))) := by
    rw [r3, hw5, log_trace, p4, l3, hw2, log_trace, log_trace]
    simp only [List.append_assoc, List.singleton_append, List.cons_append, List.nil_append]
  refine ⟨_, hmain, by rw [r1, w5fs], ?_, ?_, ?_, ?_, verb_ne_confirm cmd hverb⟩
  · rw [ht]
    simp only [← List.singleton_append (l := List.map _ _), system_calls_append, s1, c3,
      system_calls_flatten_ping, system_calls_map]
    simp [system_calls]
  · rw [ht]
    simp only [← List.singleton_append (l := List.map _ _), local_calls_append, s2, c4,
      local_calls_flatten_ping, local_calls_map]
    simp [local_calls]
  · rw [ht]
    simp only [← List.singleton_append (l := List.map _ _), update_calls_append, s3, c5,
      update_calls_flatten_ping, update_calls_map]
    simp [update_calls]
  · rw [ht]
    simp only [← List.singleton_append (l := List.map _ _), sent_commands_append, s4, c6,
      sent_commands_flatten_ping, sent_commands_map]
    simp [sent_commands]

set_option maxRecDepth 100000 in
/-- C2 applies to a ground station with the interface wlan0 on channel 161 and a node no
probe reaches: wlan0 is set to 6 and back to 161. -/
theorem change_channel_rollback_witness :
    strncmp_eq "change_channel 6".toList "change_channel".toList 14 = true ∧
    sscanf_change_channel "change_channel 6".toList = some 6 ∧
    strstr (send_command_get_response env_no_ping (capture_orig env_no_ping world0).1 ip0
      "change_channel 6".toList [] BUF_SIZE).2.1 "Failed".toList = false ∧
    nics_of env_no_ping world0 = ["wlan0".toList] ∧
    atoi (capture_orig env_no_ping world0).2 = 161 ∧
    ∃ w1, main env_no_ping world0 [ip0, "change_channel 6".toList] [] = some (w1, 0) ∧
      w1.fs = world0.fs ∧
      system_calls w1.trace = system_calls world0.trace
        ++ (nics_of env_no_ping world0).map (fun nic => iw_set_channel nic 6)
        ++ List.replicate 5 (ping_cmd ip0)
        ++ (nics_of env_no_ping world0).map
            (fun nic => iw_set_channel nic (atoi (capture_orig env_no_ping world0).2)) ∧
      local_calls w1.trace = local_calls world0.trace
        ++ [6, atoi (capture_orig env_no_ping world0).2] ∧
      update_calls w1.trace = update_calls world0.trace ∧
      sent_commands w1.trace = sent_commands world0.trace ++ ["change_channel 6".toList] ∧
      "change_channel 6".toList ≠ "confirm_channel_change".toList :=
  ⟨by decide, by decide, by decide, by decide, by decide,
   change_channel_rollback env_no_ping world0 ip0 "change_channel 6".toList [] [] 6
     (by decide) (by decide) (by decide)
     (by intro i _; show (1 : Int) ≠ 0; decide)⟩

/-! ## C3 -/

/-- C3, amended: for every command `change_channel <n>`, n being the `int` the scan of
the command stores, whose reply does not contain "Failed", for which one of the five
probes succeeds and whose confirmation is delivered (the exchange of line 417 returns
0), `main` ends with status 0; it calls `send_command_get_response` with the command and
then with `confirm_channel_change`; this second call sends `confirm_channel_change` on
its connection, reads the reply and closes, the reply is printed, and only after that
`update_file` is called with n on /etc/wifibroadcast.cfg and, if it exists, on
/config/gs.conf; `local_change_channel` is called once, with n.  For each of the two
files whose update succeeds and whose content has no NUL byte and no line longer than
1023 bytes (newline included), every line that contained `wifi_channel` afterwards reads
exactly `wifi_channel = '<n>'` and every other line is unchanged. -/
theorem change_channel_confirmed (env : Env) (w : World) (ip cmd resp : Str) (rest : List Str)
    (n : Int)
    (hverb : strncmp_eq cmd "change_channel".toList 14 = true)
    (hparse : sscanf_change_channel cmd = some n)
    (hreply : strstr (send_command_get_response env (capture_orig env w).1 ip cmd resp
      BUF_SIZE).2.1 "Failed".toList = false)
    (hprobe : ∃ i, i < 5 ∧
      env.system_ret (w.n_system + (nics_of env w).length + i) (ping_cmd ip) = 0)
    (hconfirm : (confirm_exchange env w ip cmd resp n).2.2 = 0) :
    ∃ w1 t ev, main env w (ip :: cmd :: rest) resp = some (w1, 0) ∧
      w1.trace = t ++ ev ∧
      sent_commands t = sent_commands w.trace ++ [cmd, "confirm_channel_change".toList] ∧
      (∃ t0 out, t = t0 ++ [Event.send "confirm_channel_change".toList, Event.read,
        Event.close, Event.stdout out]) ∧
      update_calls t = update_calls w.trace ∧
      sent_commands ev = [] ∧
      update_calls ev = (FILE1, n) :: (if (w.fs FILE2).isSome then [(FILE2, n)] else []) ∧
      local_calls w1.trace = local_calls w.trace ++ [n] ∧
      (∀ c, w.fs FILE1 = some c → update_succeeds env w FILE1 = true → NUL ∉ c →
        (∀ l ∈ spec_lines c, l.length ≤ 1023) → w1.fs FILE1 = some (spec_persisted n c)) ∧
      (∀ c, w.fs FILE2 = some c → update_succeeds env w FILE2 = true → NUL ∉ c →
        (∀ l ∈ spec_lines c, l.length ≤ 1023) → w1.fs FILE2 = some (spec_persisted n c)) := by
  obtain ⟨hn1, hn2⟩ := sscanf_change_channel_range cmd n hparse
  obtain ⟨c1, c2, c3, c4, c5, c6⟩ := capture_orig_frame env w
  obtain ⟨s1, s2, s3, s4, s5⟩ := send_readings env (capture_orig env w).1 ip cmd resp BUF_SIZE
  obtain ⟨f1, f2, _⟩ := send_frame env (capture_orig env w).1 ip cmd resp BUF_SIZE
  set w2 := ((send_command_get_response env (capture_orig env w).1 ip cmd resp BUF_SIZE).1.log
    (Event.stdout ((send_command_get_response env (capture_orig env w).1 ip cmd resp
      BUF_SIZE).2.1 ++ "\n".toList))).log (Event.sleep 1) with hw2
  have w2fs : w2.fs = w.fs := by simp [hw2, f1, c1]
  have w2n : w2.n_system = w.n_system := by simp [hw2, f2, c2]
  have w2nics : nics_of env w2 = nics_of env w := by
    unfold nics_of; rw [get_nics_congr env w w2 w2fs]
  have w2sent : sent_commands w2.trace = sent_commands w.trace ++ [cmd] := by
    rw [hw2]; simp only [log_trace, sent_commands_append, s4, c6]; simp [sent_commands]
  have w2upd : update_calls w2.trace = update_calls w.trace := by
    rw [hw2]; simp only [log_trace, update_calls_append, s3, c5]; simp [update_calls]
  have w2loc : local_calls w2.trace = local_calls w.trace := by
    rw [hw2]; simp only [log_trace, local_calls_append, s2, c4]; simp [local_calls]
  obtain ⟨l1, l2, l3⟩ := local_change_channel_frame env w2 n
  rw [w2nics] at l2 l3
  obtain ⟨p1, p2, j, _, _, p4⟩ := ping_loop_some_ok env ip 5 (local_change_channel env w2 n) (by
    obtain ⟨i, hi, hr⟩ := hprobe
    exact ⟨i, hi, by rw [l2, w2n]; exact hr⟩)
  set w4 := (ping_loop env ip 5 (local_change_channel env w2 n)).1 with hw4
  have w4sent : sent_commands w4.trace = sent_commands w.trace ++ [cmd] := by
    rw [p4, l3]
    simp only [← List.singleton_append (l := List.map _ _), sent_commands_append, w2sent,
      sent_commands_flatten_ping, sent_commands_map]
    simp [sent_commands]
  have w4upd : update_calls w4.trace = update_calls w.trace := by
    rw [p4, l3]
    simp only [← List.singleton_append (l := List.map _ _), update_calls_append, w2upd,
      update_calls_flatten_ping, update_calls_map]
    simp [update_calls]
  have w4loc : local_calls w4.trace = local_calls w.trace ++ [n] := by
    rw [p4, l3]
    simp only [← List.singleton_append (l := List.map _ _), local_calls_append, w2loc,
      local_calls_flatten_ping, local_calls_map]
    simp [local_calls]
  obtain ⟨q1, q2, q3, q4, q5⟩ := send_readings env w4 ip "confirm_channel_change".toList
    (send_command_get_response env (capture_orig env w).1 ip cmd resp BUF_SIZE).2.1 BUF_SIZE
  obtain ⟨g1, _, _⟩ := send_frame env w4 ip "confirm_channel_change".toList
    (send_command_get_response env (capture_orig env w).1 ip cmd resp BUF_SIZE).2.1 BUF_SIZE
  set cr := send_command_get_response env w4 ip "confirm_channel_change".toList
    (send_command_get_response env (capture_orig env w).1 ip cmd resp BUF_SIZE).2.1 BUF_SIZE
    with hcr
  set w6 := cr.1.log (Event.stdout (cr.2.1 ++ "\n".toList)) with hw6
  have w6fs : w6.fs = w.fs := by
    rw [hw6, log_fs, g1, hw4, p2, l1, w2fs]
  have w6sent : sent_commands w6.trace
      = sent_commands w.trace ++ [cmd, "confirm_channel_change".toList] := by
    rw [hw6, log_trace, sent_commands_append, q4, w4sent]; simp [sent_commands]
  have w6upd : update_calls w6.trace = update_calls w.trace := by
    rw [hw6, log_trace, update_calls_append, q3, w4upd]; simp [update_calls]
  have w6loc : local_calls w6.trace = local_calls w.trace ++ [n] := by
    rw [hw6, log_trace, local_calls_append, q2, w4loc]; simp [local_calls]
  obtain ⟨w1, hsave, u1, u2, _, u4, u5, u6, ev, htr⟩ := save_frame env w6 n hn1 hn2
  have hmain : main env w (ip :: cmd :: rest) resp = some (w1, 0) := by
    simp only [main, hverb, hparse, change_channel, hreply, if_true, ← hw2, p1,
      Bool.false_eq_true, if_false, ← hw4, ← hcr, ← hw6, hsave, Option.map_some']
  have hwire : ∃ t0 out, w6.trace = t0 ++ [Event.send "confirm_channel_change".toList,
      Event.read, Event.close, Event.stdout out] := by
    have hce : confirm_exchange env w ip cmd resp n = cr := rfl
    rw [hce] at hconfirm
    obtain ⟨⟨ev1, he1⟩, _⟩ := send_success env w4 ip "confirm_channel_change".toList
      (send_command_get_response env (capture_orig env w).1 ip cmd resp BUF_SIZE).2.1 BUF_SIZE
      hconfirm
    refine ⟨w4.trace ++ Event.call_send ip "confirm_channel_change".toList :: ev1,
      cr.2.1 ++ "\n".toList, ?_⟩
    rw [hw6, log_trace, hcr, he1]
    simp only [List.append_assoc, List.cons_append, List.nil_append, List.singleton_append]
  refine ⟨w1, w6.trace, ev, hmain, htr, w6sent, hwire, w6upd, ?_, ?_, ?_, ?_, ?_⟩
  · have := u2
    rw [htr, sent_commands_append] at this
    exact List.append_cancel_left (this.trans (List.append_nil _).symm)
  · have := u1
    rw [htr, update_calls_append, w6fs] at this
    exact List.append_cancel_left this
  · rw [u4, w6loc]
  · intro c hc hs
    apply u5 c (by rw [w6fs]; exact hc)
    unfold update_succeeds at hs ⊢
    rw [w6fs]; exact hs
  · intro c hc hs
    apply u6 c (by rw [w6fs]; exact hc)
    unfold update_succeeds at hs ⊢
    rw [w6fs]; exact hs

set_option maxRecDepth 100000 in
/-- C3 as amended applies to a reachable node that answers `OK` to `change_channel 6`
and accepts the connection for the confirmation. -/
theorem change_channel_confirmed_witness :
    (strncmp_eq "change_channel 6".toList "change_channel".toList 14 = true ∧
     sscanf_change_channel "change_channel 6".toList = some 6 ∧
     strstr (send_command_get_response env_up (capture_orig env_up world0).1 ip0
       "change_channel 6".toList [] BUF_SIZE).2.1 "Failed".toList = false ∧
     env_up.system_ret (world0.n_system + (nics_of env_up world0).length + 0) (ping_cmd ip0) = 0 ∧
     (confirm_exchange env_up world0 ip0 "change_channel 6".toList [] 6).2.2 = 0) ∧
    ∃ w1 t ev, main env_up world0 [ip0, "change_channel 6".toList] [] = some (w1, 0) ∧
      w1.trace = t ++ ev ∧
      sent_commands t = sent_commands world0.trace
        ++ ["change_channel 6".toList, "confirm_channel_change".toList] ∧
      (∃ t0 out, t = t0 ++ [Event.send "confirm_channel_change".toList, Event.read,
        Event.close, Event.stdout out]) ∧
      update_calls t = update_calls world0.trace ∧
      sent_commands ev = [] ∧
      update_calls ev = (FILE1, 6) :: (if (world0.fs FILE2).isSome then [(FILE2, 6)] else []) ∧
      local_calls w1.trace = local_calls world0.trace ++ [6] ∧
      (∀ c, world0.fs FILE1 = some c → update_succeeds env_up world0 FILE1 = true → NUL ∉ c →
        (∀ l ∈ spec_lines c, l.length ≤ 1023) → w1.fs FILE1 = some (spec_persisted 6 c)) ∧
      (∀ c, world0.fs FILE2 = some c → update_succeeds env_up world0 FILE2 = true → NUL ∉ c →
        (∀ l ∈ spec_lines c, l.length ≤ 1023) → w1.fs FILE2 = some (spec_persisted 6 c)) :=
  ⟨⟨by decide, by decide, by decide, by decide, by decide⟩,
   change_channel_confirmed env_up world0 ip0 "change_channel 6".toList [] [] 6
     (by decide) (by decide) (by decide) ⟨0, by decide, by decide⟩ (by decide)⟩

set_option maxRecDepth 1000000 in
/-- C3 as stated fails, in three ways.  In a target file whose line holds 1023 other
characters before `wifi_channel = '1'`, the update succeeds and the line afterwards
reads those 1023 characters followed by `wifi_channel = '6'`, not exactly `wifi_channel
= '6'`.  In a target file whose first line holds a NUL byte, that line is cut at the NUL
and the line with `wifi_channel` afterwards reads `awifi_channel = '6'`.  When the node
answers `OK`, a probe succeeds and the connection for the confirmation is refused,
`confirm_channel_change` is never handed to `send`, and /etc/wifibroadcast.cfg is
rewritten to channel 6 all the same. -/
theorem change_channel_confirmed_counterexample :
    -- a line longer than the read buffer of update_file
    (sscanf_change_channel "change_channel 6".toList = some 6 ∧
     strstr (send_command_get_response env_up (capture_orig env_up world_long).1 ip0
       "change_channel 6".toList [] BUF_SIZE).2.1 "Failed".toList = false ∧
     env_up.system_ret (world_long.n_system + (nics_of env_up world_long).length + 0)
       (ping_cmd ip0) = 0 ∧
     update_succeeds env_up world_long FILE1 = true ∧
     world_long.fs FILE1 = some (List.replicate 1023 'x' ++ "wifi_channel = '1'\n".toList) ∧
     (main env_up world_long [ip0, "change_channel 6".toList] []).map (fun r => r.1.fs FILE1)
       = some (some (List.replicate 1023 'x' ++ "wifi_channel = '6'\n".toList)) ∧
     spec_persisted 6 (List.replicate 1023 'x' ++ "wifi_channel = '1'\n".toList)
       = "wifi_channel = '6'\n".toList) ∧
    -- a NUL byte in the file
    (strstr (send_command_get_response env_up (capture_orig env_up world_nul).1 ip0
       "change_channel 6".toList [] BUF_SIZE).2.1 "Failed".toList = false ∧
     env_up.system_ret (world_nul.n_system + (nics_of env_up world_nul).length + 0)
       (ping_cmd ip0) = 0 ∧
     update_succeeds env_up world_nul FILE1 = true ∧
     world_nul.fs FILE1 = some ('a' :: NUL :: "b\nwifi_channel = '1'\n".toList) ∧
     (main env_up world_nul [ip0, "change_channel 6".toList] []).map (fun r => r.1.fs FILE1)
       = some (some "awifi_channel = '6'\n".toList) ∧
     spec_persisted 6 ('a' :: NUL :: "b\nwifi_channel = '1'\n".toList)
       = 'a' :: NUL :: "b\nwifi_channel = '6'\n".toList) ∧
    -- the connection for the confirmation is refused
    (env_confirm_down.recv world0.n_read = "OK".toList ∧
     (send_command_get_response env_confirm_down (capture_orig env_confirm_down world0).1 ip0
       "change_channel 6".toList [] BUF_SIZE).2 = ("OK".toList, 0) ∧
     env_confirm_down.system_ret (world0.n_system + (nics_of env_confirm_down world0).length + 0)
       (ping_cmd ip0) = 0 ∧
     (confirm_exchange env_confirm_down world0 ip0 "change_channel 6".toList [] 6).2.2 = -1 ∧
     (main env_confirm_down world0 [ip0, "change_channel 6".toList] []).map
        (fun r => (wire_sends r.1.trace, update_calls r.1.trace, r.1.fs FILE1))
       = some (["change_channel 6".toList], [(FILE1, 6)],
          some "[wifi]\nwifi_channel = '6'\nwifi_region = 'BO'\n".toList)) := by
  refine ⟨⟨by decide, by decide, by decide, by decide, by decide, by decide!, by decide!⟩,
    ⟨by decide, by decide, by decide, by decide, by decide, by decide⟩,
    ⟨by decide, by decide, by decide, by decide, by decide⟩⟩

/-! ## C4 -/

set_option maxRecDepth 1000000 in
/-- C4 fails on the code: `main` ignores the value `send_command_get_response` returns
for `change_channel`.  With a response buffer that holds the empty string, a send that
returns -1 (every connection refused, or an address that does not convert) is followed
by `set channel 6` on wlan0, by the probes and, when no probe answers, by `set channel
161`; when a probe answers, by the rewrite of /etc/wifibroadcast.cfg to channel 6. -/
theorem connect_failure_not_aborting :
    -- every connection refused, no probe answered
    ((send_command_get_response env_down (capture_orig env_down world0).1 ip0
        "change_channel 6".toList [] BUF_SIZE).2.2 = -1 ∧
     (main env_down world0 [ip0, "change_channel 6".toList] []).map
        (fun r => (system_calls r.1.trace, r.2))
      = some (["iw dev wlan0 set channel 6".toList,
          "ping -c1 -W1 192.168.1.10 >/dev/null".toList,
          "ping -c1 -W1 192.168.1.10 >/dev/null".toList,
          "ping -c1 -W1 192.168.1.10 >/dev/null".toList,
          "ping -c1 -W1 192.168.1.10 >/dev/null".toList,
          "ping -c1 -W1 192.168.1.10 >/dev/null".toList,
          "iw dev wlan0 set channel 161".toList], 0)) ∧
    -- every connection refused, the first probe answered
    ((send_command_get_response env_closed (capture_orig env_closed world0).1 ip0
        "change_channel 6".toList [] BUF_SIZE).2.2 = -1 ∧
     (main env_closed world0 [ip0, "change_channel 6".toList] []).map
        (fun r => (system_calls r.1.trace, update_calls r.1.trace, r.1.fs FILE1))
      = some (["iw dev wlan0 set channel 6".toList,
          "ping -c1 -W1 192.168.1.10 >/dev/null".toList],
          [(FILE1, 6)],
          some "[wifi]\nwifi_channel = '6'\nwifi_region = 'BO'\n".toList)) ∧
    -- an address that does not convert
    ((send_command_get_response { env_down with inet_pton := fun _ => false }
        (capture_orig { env_down with inet_pton := fun _ => false } world0).1 "node".toList
        "change_channel 6".toList [] BUF_SIZE).2.2 = -1 ∧
     (main { env_down with inet_pton := fun _ => false } world0
        ["node".toList, "change_channel 6".toList] []).map
        (fun r => (local_calls r.1.trace, (system_calls r.1.trace).length))
      = some ([6, 161], 7)) := by
  refine ⟨⟨by decide, by decide⟩, ⟨by decide, by decide⟩, by decide, by decide⟩

/-! ## C5 -/

/-- C5, amended: for every address that converts, when each `socket()` call succeeds and
every connect attempt fails, `send_command_get_response` makes exactly 3 connect
attempts with one `sleep(1)` between consecutive attempts and none after the third,
sends nothing and returns -1 with the response buffer untouched; and when the first k
`socket()` calls succeed and the first successful connect is attempt k (1 <= k <= 3),
exactly k connect attempts and k - 1 sleeps occur. -/
theorem connect_attempts (env : Env) (w : World) (ip cmd resp : Str) (size : Nat)
    (hip : env.inet_pton ip = true) :
    ((∀ i, i < 3 → env.socket_ok (w.n_socket + i) = true) →
     (∀ i, i < 3 → connect_with_timeout (env.connect_sys (w.n_connect + i)) ≠ 0) →
      (send_command_get_response env w ip cmd resp size).2 = (resp, -1) ∧
      (send_command_get_response env w ip cmd resp size).1.trace = w.trace ++
        [Event.call_send ip cmd,
         Event.socket, Event.connect, Event.perror "[DEBUG] connect() failed".toList, Event.close,
         Event.sleep 1,
         Event.socket, Event.connect, Event.perror "[DEBUG] connect() failed".toList, Event.close,
         Event.sleep 1,
         Event.socket, Event.connect, Event.perror "[DEBUG] connect() failed".toList, Event.close,
         Event.stderr "Failed to connect after 3 attempts\n".toList]) ∧
    (∀ k, 1 ≤ k → k ≤ 3 →
      (∀ i, i < k → env.socket_ok (w.n_socket + i) = true) →
      (∀ i, i + 1 < k → connect_with_timeout (env.connect_sys (w.n_connect + i)) ≠ 0) →
      connect_with_timeout (env.connect_sys (w.n_connect + (k - 1))) = 0 →
      ∃ ev, (send_command_get_response env w ip cmd resp size).1.trace = w.trace ++ ev ∧
        ev.count Event.connect = k ∧ ev.countP Event.is_sleep = k - 1) :=
  ⟨fun hs hf => send_connect_all_fail env w ip cmd resp size hip hs hf,
   fun k h1 h3 hs hf hok => send_connect_first_success env w ip cmd resp size hip k h1 h3 hs hf hok⟩

set_option maxRecDepth 100000 in
/-- C5 as amended applies to a node that refuses every connection (3 attempts, return
-1) and to a node that accepts the first (1 attempt, no sleep). -/
theorem connect_attempts_witness :
    env_down.inet_pton ip0 = true ∧
    (send_command_get_response env_down world0 ip0 "info".toList [] BUF_SIZE).2 = ([], -1) ∧
    (send_command_get_response env_down world0 ip0 "info".toList [] BUF_SIZE).1.trace.count
      Event.connect = 3 ∧
    ∃ ev, (send_command_get_response env_up world0 ip0 "info".toList [] BUF_SIZE).1.trace
        = world0.trace ++ ev ∧ ev.count Event.connect = 1 ∧ ev.countP Event.is_sleep = 1 - 1 :=
  ⟨by decide,
   ((connect_attempts env_down world0 ip0 "info".toList [] BUF_SIZE (by decide)).1
      (by intro i _; rfl) (by intro i _; show connect_with_timeout sys_refused ≠ 0; decide)).1,
   by rw [((connect_attempts env_down world0 ip0 "info".toList [] BUF_SIZE (by decide)).1
      (by intro i _; rfl) (by intro i _; show connect_with_timeout sys_refused ≠ 0; decide)).2]; decide,
   (connect_attempts env_up world0 ip0 "info".toList [] BUF_SIZE (by decide)).2 1
      (by decide) (by decide) (by intro i _; rfl) (by intro i h; omega) (by decide)⟩

set_option maxRecDepth 100000 in
/-- C5 as stated fails: when the second `socket()` call fails, every connect attempt
made has failed, yet there is 1 connect attempt and 1 sleep, not 3 and 2. -/
theorem connect_attempts_counterexample :
    env_socket_fails.inet_pton ip0 = true ∧
    (∀ k, connect_with_timeout (env_socket_fails.connect_sys k) ≠ 0) ∧
    (send_command_get_response env_socket_fails world0 ip0 "info".toList [] BUF_SIZE).1.trace
      = [Event.call_send ip0 "info".toList,
         Event.socket, Event.connect, Event.perror "[DEBUG] connect() failed".toList, Event.close,
         Event.sleep 1,
         Event.socket, Event.perror "Socket creation error".toList] ∧
    (send_command_get_response env_socket_fails world0 ip0 "info".toList [] BUF_SIZE).1.trace.count
      Event.connect = 1 ∧
    (send_command_get_response env_socket_fails world0 ip0 "info".toList []
      BUF_SIZE).1.trace.countP Event.is_sleep = 1 :=
  ⟨by decide, by intro k; show connect_with_timeout sys_refused ≠ 0; decide, by decide, by decide, by decide⟩

/-! ## C6 -/

/-- C6, amended: for every file content without NUL byte, every key and channel value
and every format (of ordinary characters, `%%` and one `%d`) whose rendering has at most
1022 characters and contains neither a newline nor a NUL, if two runs of `update_file`
with the same arguments both succeed, the file content after the second run is that
after the first.  Lines longer than the read buffer and a last line without newline are
included. -/
theorem update_file_idempotent (env : Env) (w w1 w2 : World) (path key fmt : Str) (ch : Int)
    (r : Str)
    (hfmt : format_int fmt ch = some r)
    (hlen : r.length ≤ 1022) (hnl : '\n' ∉ r) (hnul : NUL ∉ r)
    (hc : ∀ c, w.fs path = some c → NUL ∉ c)
    (h1 : update_file env w path key fmt ch = some (w1, 1))
    (h2 : update_file env w1 path key fmt ch = some (w2, 1)) :
    w2.fs path = w1.fs path := by
  have e1 := update_file_success env w w1 path key fmt ch r hfmt h1
  have e2 := update_file_success env w1 w2 path key fmt ch r hfmt h2
  have hr : snprintf 1024 r = r := by
    unfold snprintf
    exact List.take_of_length_le (by omega)
  rw [hr] at e1 e2
  rw [e2, e1]
  by_cases ht : path = tmp_path path
  · have a1 : fs_set w.fs (tmp_path path) (some []) path = some [] := by
      simp [fs_set, ← ht]
    have a2 : fs_set w1.fs (tmp_path path) (some []) path = some [] := by
      simp [fs_set, ← ht]
    rw [a1, a2]
  · have a1 : fs_set w.fs (tmp_path path) (some []) path = w.fs path := by
      simp [fs_set, ht]
    have a2 : fs_set w1.fs (tmp_path path) (some []) path = w1.fs path := by
      simp [fs_set, ht]
    rw [a2, e1, a1, Option.getD_some]
    have hin : NUL ∉ (w.fs path).getD [] := by
      cases hw : w.fs path with
      | none => simp
      | some c => exact hc c hw
    rw [rewrite_all_idem key r hlen hnl hnul _ _ (le_refl _) hin _ (le_refl _)]

set_option maxRecDepth 100000 in
/-- C6 as amended applies to /etc/wifibroadcast.cfg and the format `wifi_channel =
'%d'`. -/
theorem update_file_idempotent_witness :
    format_int "wifi_channel = '%d'".toList 6 = some "wifi_channel = '6'".toList ∧
    outcome (update_file env_up world0 "/etc/wifibroadcast.cfg".toList "wifi_channel".toList
        "wifi_channel = '%d'".toList 6) "/etc/wifibroadcast.cfg".toList
      = outcome (update_twice env_up world0 "/etc/wifibroadcast.cfg".toList
          "wifi_channel".toList "wifi_channel = '%d'".toList 6) "/etc/wifibroadcast.cfg".toList := by
  have hf : format_int "wifi_channel = '%d'".toList 6 = some "wifi_channel = '6'".toList := by
    decide
  refine ⟨hf, ?_⟩
  obtain ⟨w1, h1, _, f1⟩ := update_file_run env_up world0 "/etc/wifibroadcast.cfg".toList
    "wifi_channel".toList "wifi_channel = '%d'".toList 6 _ hf (by decide)
  have hs2 : update_succeeds env_up w1 "/etc/wifibroadcast.cfg".toList = true := by
    unfold update_succeeds
    rw [f1]
    decide
  obtain ⟨w2, h2, _, _⟩ := update_file_run env_up w1 "/etc/wifibroadcast.cfg".toList
    "wifi_channel".toList "wifi_channel = '%d'".toList 6 _ hf hs2
  have key := update_file_idempotent env_up world0 w1 w2 "/etc/wifibroadcast.cfg".toList
    "wifi_channel".toList "wifi_channel = '%d'".toList 6 _ hf (by decide) (by decide) (by decide)
    (by
      intro c hc
      have : c = "[wifi]\nwifi_channel = '161'\nwifi_region = 'BO'\n".toList := by
        have e : world0.fs "/etc/wifibroadcast.cfg".toList
            = some "[wifi]\nwifi_channel = '161'\nwifi_region = 'BO'\n".toList := by decide
        rw [e] at hc
        exact (Option.some.inj hc).symm
      subst this
      decide)
    h1 h2
  unfold update_twice
  rw [h1]
  simp only [Option.some_bind]
  rw [h2]
  simp only [outcome, Option.map_some', key]

set_option maxRecDepth 1000000 in
set_option maxHeartbeats 4000000 in
/-- C6 as stated fails in three ways, each with both runs succeeding: a format whose
rendering contains a newline (`k` becomes two lines, then three), a file with a NUL byte
(two lines are merged by the first run and match the key in the second), and a rendering
of 1023 characters (the second run reads the line in two pieces and adds a newline). -/
theorem update_file_idempotent_counterexample :
    -- a format whose rendering contains a newline
    (outcome (update_file env_up (world_file "/tmp/a.cfg".toList "k\n".toList)
        "/tmp/a.cfg".toList "k".toList "\nk".toList 5) "/tmp/a.cfg".toList
      = some (1, some "\nk\n".toList) ∧
     outcome (update_twice env_up (world_file "/tmp/a.cfg".toList "k\n".toList)
        "/tmp/a.cfg".toList "k".toList "\nk".toList 5) "/tmp/a.cfg".toList
      = some (1, some "\n\nk\n".toList)) ∧
    -- a file with a NUL byte
    (outcome (update_file env_up (world_file "/tmp/a.cfg".toList ['a', NUL, '\n', 'b', '\n'])
        "/tmp/a.cfg".toList "ab".toList "%d".toList 5) "/tmp/a.cfg".toList
      = some (1, some "ab\n".toList) ∧
     outcome (update_twice env_up (world_file "/tmp/a.cfg".toList ['a', NUL, '\n', 'b', '\n'])
        "/tmp/a.cfg".toList "ab".toList "%d".toList 5) "/tmp/a.cfg".toList
      = some (1, some "5\n".toList)) ∧
    -- a rendering that fills the buffer
    (outcome (update_file env_up (world_file "/tmp/a.cfg".toList "k\n".toList)
        "/tmp/a.cfg".toList "k".toList (List.replicate 1023 'k') 5) "/tmp/a.cfg".toList
      = some (1, some (List.replicate 1023 'k' ++ "\n".toList)) ∧
     outcome (update_twice env_up (world_file "/tmp/a.cfg".toList "k\n".toList)
        "/tmp/a.cfg".toList "k".toList (List.replicate 1023 'k') 5) "/tmp/a.cfg".toList
      = some (1, some (List.replicate 1023 'k' ++ "\n\n".toList))) := by
  have hf := format_int_replicate 1023 5
  have hs : update_succeeds env_up (world_file "/tmp/a.cfg".toList "k\n".toList)
      "/tmp/a.cfg".toList = true := by decide
  obtain ⟨w1, h1, _, f1⟩ := update_file_run env_up _ "/tmp/a.cfg".toList "k".toList
    (List.replicate 1023 'k') 5 _ hf hs
  have c1 : w1.fs "/tmp/a.cfg".toList = some (List.replicate 1023 'k' ++ "\n".toList) := by
    rw [f1]; decide!
  have hs2 : update_succeeds env_up w1 "/tmp/a.cfg".toList = true := by
    unfold update_succeeds
    rw [c1]; decide
  obtain ⟨w2, h2, _, f2⟩ := update_file_run env_up w1 "/tmp/a.cfg".toList "k".toList
    (List.replicate 1023 'k') 5 _ hf hs2
  have c2 : w2.fs "/tmp/a.cfg".toList = some (List.replicate 1023 'k' ++ "\n\n".toList) := by
    rw [f2]
    have e : fs_set w1.fs (tmp_path "/tmp/a.cfg".toList) (some []) "/tmp/a.cfg".toList
        = some (List.replicate 1023 'k' ++ "\n".toList) := by
      rw [← c1]; unfold fs_set; rw [if_neg (by decide)]
    unfold fs_rename
    rw [if_neg (by decide), e]
    unfold fs_set
    rw [if_neg (by decide), if_pos rfl, if_pos rfl]
    decide!
  refine ⟨⟨by decide, by decide⟩, ⟨by decide, by decide⟩, ?_, ?_⟩
  · rw [h1]; simp only [outcome, Option.map_some', c1]
  · unfold update_twice
    rw [h1]; simp only [Option.some_bind]
    rw [h2]; simp only [outcome, Option.map_some', c2]

/-! ## C7 -/

/-- C7, amended: for every file content without NUL byte whose lines are at most 1023
bytes long (newline included), every key and channel value, every format of ordinary
characters, `%%` and one `%d`, and every file path that differs from the name of its
temporary file, if `update_file` succeeds the new content is the old content line by
line in the same order, every line that does not contain the key copied unchanged and
every line that contains it replaced by the first 1023 characters of the rendered format
followed by a newline; a file with no matching line keeps its content. -/
theorem update_file_line_by_line (env : Env) (w w1 : World) (path key fmt : Str) (ch : Int)
    (r : Str) (c : List Char)
    (hfmt : format_int fmt ch = some r)
    (hc : w.fs path = some c)
    (hnul : NUL ∉ c)
    (hshort : ∀ l ∈ spec_lines c, l.length ≤ 1023)
    (htmp : tmp_path path ≠ path)
    (hok : update_file env w path key fmt ch = some (w1, 1)) :
    w1.fs path = some (spec_update key (snprintf 1024 r) c) ∧
    ((∀ l ∈ spec_lines c, ¬ key <:+: l) → w1.fs path = some c) := by
  have h := update_file_success env w w1 path key fmt ch r hfmt hok
  have hne : ¬ path = tmp_path path := fun e => htmp e.symm
  have h0 : fs_set w.fs (tmp_path path) (some []) path = some c := by
    simp [fs_set, hne, hc]
  rw [h0, Option.getD_some, rewrite_all_spec key _ _ c (le_refl _) hnul hshort] at h
  refine ⟨h, fun hno => ?_⟩
  rw [h, spec_update_no_match key _ c hno]

set_option maxRecDepth 1000000 in
/-- C7 as amended applies to a three-line /etc/wifibroadcast.cfg: only the
`wifi_channel` line changes. -/
theorem update_file_line_by_line_witness :
    (world_file "/etc/wifibroadcast.cfg".toList
        "[wifi]\nwifi_channel = '161'\nwifi_region = 'BO'\n".toList).fs
      "/etc/wifibroadcast.cfg".toList
      = some "[wifi]\nwifi_channel = '161'\nwifi_region = 'BO'\n".toList ∧
    ((update_file env_up (world_file "/etc/wifibroadcast.cfg".toList
        "[wifi]\nwifi_channel = '161'\nwifi_region = 'BO'\n".toList)
        "/etc/wifibroadcast.cfg".toList "wifi_channel".toList "wifi_channel = '%d'".toList 6).map
        (fun x => x.1.fs "/etc/wifibroadcast.cfg".toList))
      = some (some "[wifi]\nwifi_channel = '6'\nwifi_region = 'BO'\n".toList) := by
  refine ⟨by decide, ?_⟩
  cases h : update_file env_up (world_file "/etc/wifibroadcast.cfg".toList
        "[wifi]\nwifi_channel = '161'\nwifi_region = 'BO'\n".toList)
        "/etc/wifibroadcast.cfg".toList "wifi_channel".toList "wifi_channel = '%d'".toList 6 with
  | none =>
    have : (update_file env_up (world_file "/etc/wifibroadcast.cfg".toList
        "[wifi]\nwifi_channel = '161'\nwifi_region = 'BO'\n".toList)
        "/etc/wifibroadcast.cfg".toList "wifi_channel".toList "wifi_channel = '%d'".toList
        6).isSome = true := by decide
    rw [h] at this
    cases this
  | some x =>
    obtain ⟨w1, ret⟩ := x
    have hret : ret = 1 := by
      have : (update_file env_up (world_file "/etc/wifibroadcast.cfg".toList
        "[wifi]\nwifi_channel = '161'\nwifi_region = 'BO'\n".toList)
        "/etc/wifibroadcast.cfg".toList "wifi_channel".toList "wifi_channel = '%d'".toList 6).map
          (fun x => x.2) = some 1 := by decide
      rw [h] at this
      simpa using this
    subst hret
    have := (update_file_line_by_line env_up _ w1 "/etc/wifibroadcast.cfg".toList
      "wifi_channel".toList "wifi_channel = '%d'".toList 6 "wifi_channel = '6'".toList
      "[wifi]\nwifi_channel = '161'\nwifi_region = 'BO'\n".toList
      (by decide) (by decide) (by decide) (by decide) (by decide) h).1
    simp only [Option.map_some']
    rw [this]
    decide

set_option maxRecDepth 1000000 in
set_option maxHeartbeats 4000000 in
/-- C7 as stated fails in three ways, each with `update_file` returning 1: a line longer
than the buffer that contains the key keeps its first 1023 characters; a line with a NUL
byte and without the key is cut at the NUL and loses its newline; a file whose path has
255 characters is its own temporary file and ends up empty. -/
theorem update_file_line_by_line_counterexample :
    -- a line longer than the buffer that contains the key is not replaced as a whole
    (outcome (update_file env_up
        (world_file "/tmp/a.cfg".toList (List.replicate 1023 'x' ++ "k\n".toList))
        "/tmp/a.cfg".toList "k".toList "%d".toList 5) "/tmp/a.cfg".toList
      = some (1, some (List.replicate 1023 'x' ++ "5\n".toList)) ∧
     spec_update "k".toList "5".toList (List.replicate 1023 'x' ++ "k\n".toList)
      = "5\n".toList) ∧
    -- a line with a NUL byte and without the key is not copied byte for byte
    (outcome (update_file env_up (world_file "/tmp/a.cfg".toList ['a', NUL, 'b', '\n'])
        "/tmp/a.cfg".toList "k".toList "%d".toList 5) "/tmp/a.cfg".toList
      = some (1, some ['a']) ∧
     spec_update "k".toList "5".toList ['a', NUL, 'b', '\n'] = ['a', NUL, 'b', '\n']) ∧
    -- a file whose temporary name is the file itself loses its content
    (tmp_path (List.replicate 255 'p') = List.replicate 255 'p' ∧
     outcome (update_file env_up (world_file (List.replicate 255 'p') "x\n".toList)
        (List.replicate 255 'p') "k".toList "%d".toList 5) (List.replicate 255 'p')
      = some (1, some []) ∧
     spec_update "k".toList "5".toList "x\n".toList = "x\n".toList) := by
  refine ⟨⟨by decide, ?_⟩, ⟨by decide, by decide⟩, by decide, by decide, by decide⟩
  unfold spec_update
  have e : List.replicate 1023 'x' ++ "k\n".toList
      = (List.replicate 1023 'x' ++ ['k']) ++ '\n' :: [] := by
    rw [List.append_assoc]; rfl
  have hnl : '\n' ∉ List.replicate 1023 'x' ++ ['k'] := by
    intro h
    rw [List.mem_append] at h
    rcases h with h | h
    · exact absurd (List.eq_of_mem_replicate h) (by decide)
    · exact absurd (List.eq_of_mem_singleton h) (by decide)
  have hk : "k".toList <:+: List.replicate 1023 'x' ++ ['k'] ++ ['\n'] :=
    ⟨List.replicate 1023 'x', ['\n'], rfl⟩
  rw [e, spec_lines_line _ _ hnl, show spec_lines [] = [] from rfl, List.map_cons, if_pos hk]
  rfl

/-! ## C8 -/

/-- C8, amended: for every list of interface names, each non-empty and free of spaces,
line breaks and NUL, whose configuration line `WFB_NICS="<names joined by single
spaces>"` has at most 255 characters: on a readable file in which that line (with or
without a newline after it) is preceded only by lines that do not begin with `WFB_NICS=`
and are at most 255 bytes long (newline included), `get_nics` returns exactly that list,
in order; on a readable file whose lines all are at most 255 bytes long and none of
which begins with `WFB_NICS=`, it returns the empty array; on a missing or unreadable
file it returns NULL with count 0. -/
theorem get_nics_round_trip (env : Env) (w : World) :
    (∀ (content : List Char) (names : List Str) (ls more : List (List Char)) (nl : List Char),
      env.readable NICS_FILE = true → w.fs NICS_FILE = some content →
      spec_lines content = ls ++ (nics_line names ++ nl) :: more →
      (nl = [] ∨ nl = ['\n']) →
      (∀ l ∈ ls, ¬ NICS_KEY <+: l ∧ l.length ≤ 255) →
      (∀ a ∈ names, name_ok a) →
      (nics_line names).length ≤ 255 →
      get_nics env w = some names) ∧
    (∀ (content : List Char),
      env.readable NICS_FILE = true → w.fs NICS_FILE = some content →
      (∀ l ∈ spec_lines content, ¬ NICS_KEY <+: l ∧ l.length ≤ 255) →
      get_nics env w = some []) ∧
    ((env.readable NICS_FILE = false ∨ w.fs NICS_FILE = none) → get_nics env w = none) := by
  refine ⟨?_, ?_, ?_⟩
  · intro content names ls more nl hr hc hs hnl hl hn hlen
    obtain ⟨rest, fuel2, a1, a2, a3⟩ :=
      get_nics_scan_skip ls content _ content.length (le_refl _) hs hl
    have hrest : rest = nics_line names ∨ ∃ y, rest = nics_line names ++ '\n' :: y := by
      cases rest with
      | nil => simp [spec_lines] at a2
      | cons c s =>
        have hsp := line_split_append (c :: s)
        rw [spec_lines_cons, List.cons.injEq] at a2
        rcases hnl with h | h
        · subst h
          rw [List.append_nil] at a2
          have hno := line_split_no_newline (c :: s)
            (by rw [a2.1]; exact nics_line_no_newline names hn)
          rw [a2.1, hno, List.append_nil] at hsp
          exact Or.inl hsp.symm
        · subst h
          rw [a2.1] at hsp
          have h2 := hsp.symm
          simp only [List.append_assoc, List.singleton_append] at h2
          exact Or.inr ⟨(line_split (c :: s)).2, h2⟩
    have hscan := get_nics_scan_key names hn hlen rest fuel2 a1 hrest
    unfold get_nics
    simp only [show "/etc/default/wifibroadcast".toList = NICS_FILE from rfl, hr, hc]
    rw [a3, hscan, strip_quotes_quoted]
    simp only [Bool.true_eq_false, if_false]
    rw [strtok_loop_join names (fun a ha => ⟨(hn a ha).1, (hn a ha).2.1⟩) _
      (join_spaces_length names (fun a ha => (hn a ha).1))]
  · intro content hr hc hl
    obtain ⟨rest, fuel2, a1, a2, a3⟩ :=
      get_nics_scan_skip (spec_lines content) content [] content.length (le_refl _)
        (by simp) hl
    have hrest : rest = [] := by
      cases rest with
      | nil => rfl
      | cons c s => rw [spec_lines_cons] at a2; cases a2
    subst hrest
    have h0 : get_nics_scan fuel2 [] = [] := by
      cases fuel2 <;> simp [get_nics_scan, fgets]
    unfold get_nics
    simp only [show "/etc/default/wifibroadcast".toList = NICS_FILE from rfl, hr, hc]
    rw [a3, h0]
    rfl
  · intro h
    unfold get_nics
    simp only [show "/etc/default/wifibroadcast".toList = NICS_FILE from rfl]
    rcases h with h | h
    · rw [if_pos h]
    · rw [h]; simp

set_option maxRecDepth 100000 in
/-- C8 as amended applies to a file with `WFB_NICS="wlan0 wlan1"` on its second line, to
a file without the key, and to a missing file. -/
theorem get_nics_round_trip_witness :
    get_nics env_up (world_file NICS_FILE
        "# interfaces\nWFB_NICS=\"wlan0 wlan1\"\nWFB_CHANNEL=161\n".toList)
      = some ["wlan0".toList, "wlan1".toList] ∧
    get_nics env_up (world_file NICS_FILE "# interfaces\nWFB_CHANNEL=161\n".toList) = some [] ∧
    get_nics env_up (world_file FILE1 []) = none :=
  ⟨(get_nics_round_trip env_up _).1
      "# interfaces\nWFB_NICS=\"wlan0 wlan1\"\nWFB_CHANNEL=161\n".toList
      ["wlan0".toList, "wlan1".toList] ["# interfaces\n".toList] ["WFB_CHANNEL=161\n".toList]
      ['\n'] (by decide) (by decide) (by decide) (by decide) (by decide)
      (by
        intro a ha
        simp only [List.mem_cons, List.mem_singleton, List.not_mem_nil, or_false] at ha
        rcases ha with h | h <;> subst h <;> unfold name_ok <;> decide)
      (by decide),
   (get_nics_round_trip env_up _).2.1 "# interfaces\nWFB_CHANNEL=161\n".toList
      (by decide) (by decide) (by decide),
   (get_nics_round_trip env_up _).2.2 (Or.inr (by decide))⟩

set_option maxRecDepth 1000000 in
/-- C8 as stated fails: after 255 other characters on the same line, `WFB_NICS=` starts
a new buffer of the scan and is taken for the start of a line.  The registry is `eth9`
although the first line that begins with `WFB_NICS=` names `wlan0`, and it is `eth9`
although no line begins with `WFB_NICS=`. -/
theorem get_nics_round_trip_counterexample :
    -- the first line that begins with the key names wlan0, the registry says eth9
    (spec_first_key_line
        (List.replicate 255 'x' ++ "WFB_NICS=\"eth9\"\nWFB_NICS=\"wlan0\"\n".toList)
      = some (nics_line ["wlan0".toList] ++ ['\n']) ∧
     get_nics env_up (world_file NICS_FILE
        (List.replicate 255 'x' ++ "WFB_NICS=\"eth9\"\nWFB_NICS=\"wlan0\"\n".toList))
      = some ["eth9".toList]) ∧
    -- no line begins with the key, the registry is not empty
    (spec_first_key_line (List.replicate 255 'x' ++ "WFB_NICS=eth9\n".toList) = none ∧
     get_nics env_up (world_file NICS_FILE
        (List.replicate 255 'x' ++ "WFB_NICS=eth9\n".toList))
      = some ["eth9".toList]) := by
  refine ⟨⟨by decide!, by decide!⟩, by decide!, by decide!⟩

/-! ## C9 -/

/-- C9, amended: for every command line that begins with `set_video_mode`: if the scan
`sscanf(command, "set_video_mode %31s %d %d '%127[^']'", ...)` assigns fewer than four
fields, `main` reports "Invalid set_video_mode format" and does not call
`send_command_get_response`; every line that is the verb and exactly four fields
separated by white space (a token of at most 31 characters without white space, two
integers, a single-quoted non-empty text) is scanned into four fields; and whenever four
fields are assigned, `send_command_get_response` is called exactly once, with the
command line unchanged.  The line `set_video_mode 1920x1080 60 100 '100 200 300 400'` is
scanned into four fields, the line without the quoted field is not. -/
theorem set_video_mode_gate (env : Env) (w : World) (ip cmd resp : Str) (rest : List Str)
    (hverb : strncmp_eq cmd "set_video_mode".toList 14 = true) :
    (sscanf_set_video_mode cmd ≠ 4 →
      main env w (ip :: cmd :: rest) resp
        = some (w.log (Event.stderr "Invalid set_video_mode format\n".toList), 0) ∧
      sent_commands (w.log (Event.stderr "Invalid set_video_mode format\n".toList)).trace
        = sent_commands w.trace) ∧
    (spec_video_mode cmd = true → sscanf_set_video_mode cmd = 4) ∧
    (sscanf_set_video_mode cmd = 4 →
      ∃ w1, main env w (ip :: cmd :: rest) resp = some (w1, 0) ∧
        sent_commands w1.trace = sent_commands w.trace ++ [cmd]) ∧
    sscanf_set_video_mode "set_video_mode 1920x1080 60 100 '100 200 300 400'".toList = 4 ∧
    sscanf_set_video_mode "set_video_mode 1920x1080 60 100".toList ≠ 4 := by
  have hv := video_not_channel cmd hverb
  refine ⟨?_, spec_video_mode_scans cmd, ?_, by decide, by decide⟩
  · intro h
    refine ⟨by simp only [main, hv, hverb, h, if_true, if_false, Bool.false_eq_true], ?_⟩
    simp only [log_trace, sent_commands_append]; simp [sent_commands]
  · intro h
    refine ⟨forward env w ip cmd resp,
      by simp only [main, hv, hverb, h, if_true, if_false, Bool.false_eq_true], ?_⟩
    exact (forward_readings env w ip cmd resp).2.2.1

set_option maxRecDepth 100000 in
/-- C9 as amended applies to `set_video_mode 1920x1080 60 100 '100 200 300 400'`, which
is forwarded once. -/
theorem set_video_mode_gate_witness :
    strncmp_eq "set_video_mode 1920x1080 60 100 '100 200 300 400'".toList
      "set_video_mode".toList 14 = true ∧
    spec_video_mode "set_video_mode 1920x1080 60 100 '100 200 300 400'".toList = true ∧
    ∃ w1, main env_up world0 [ip0, "set_video_mode 1920x1080 60 100 '100 200 300 400'".toList] []
        = some (w1, 0) ∧
      sent_commands w1.trace = sent_commands world0.trace
        ++ ["set_video_mode 1920x1080 60 100 '100 200 300 400'".toList] :=
  ⟨by decide, by decide,
   (set_video_mode_gate env_up world0 ip0
      "set_video_mode 1920x1080 60 100 '100 200 300 400'".toList [] []
      (by decide)).2.2.1 (by decide)⟩

set_option maxRecDepth 100000 in
/-- C9 as stated fails: a line whose quoted field has no closing quote, and a line whose
token has 32 characters and that has only three fields, do not have the four fields
described, yet both are forwarded to the node. -/
theorem set_video_mode_gate_counterexample :
    spec_video_mode "set_video_mode 1920x1080 60 100 '100 200 300 400".toList = false ∧
    (main env_up world0 [ip0, "set_video_mode 1920x1080 60 100 '100 200 300 400".toList] []).map
        (fun r => sent_commands r.1.trace)
      = some ["set_video_mode 1920x1080 60 100 '100 200 300 400".toList] ∧
    spec_video_mode ("set_video_mode ".toList ++ List.replicate 31 'a' ++ "5 60 'x'".toList)
      = false ∧
    (main env_up world0
        [ip0, "set_video_mode ".toList ++ List.replicate 31 'a' ++ "5 60 'x'".toList] []).map
        (fun r => sent_commands r.1.trace)
      = some ["set_video_mode ".toList ++ List.replicate 31 'a' ++ "5 60 'x'".toList] := by
  refine ⟨by decide, by decide, by decide, by decide⟩

/-! ## C10 -/

/-- C10, amended: for every command that begins with neither `change_channel` nor
`set_video_mode`, `main` calls `send_command_get_response` with the command line
unchanged and ends with status 0, whether that call succeeds or fails; when the call
returns 0, the response followed by a newline is printed right after it. -/
theorem pass_through (env : Env) (w : World) (ip cmd resp : Str) (rest : List Str)
    (h1 : strncmp_eq cmd "change_channel".toList 14 = false)
    (h2 : strncmp_eq cmd "set_video_mode".toList 14 = false) :
    ∃ w1, main env w (ip :: cmd :: rest) resp = some (w1, 0) ∧
      sent_commands w1.trace = sent_commands w.trace ++ [cmd] ∧
      ((send_command_get_response env w ip cmd resp BUF_SIZE).2.2 = 0 →
        w1.trace = (send_command_get_response env w ip cmd resp BUF_SIZE).1.trace ++
          [Event.stdout ((send_command_get_response env w ip cmd resp BUF_SIZE).2.1
            ++ "\n".toList)]) := by
  obtain ⟨_, _, f3, _⟩ := forward_readings env w ip cmd resp
  refine ⟨forward env w ip cmd resp, ?_, f3, ?_⟩
  · simp only [main, h1, h2, if_false, Bool.false_eq_true, ite_self]
  · intro h
    unfold forward
    simp only [h, if_true, log_trace]

set_option maxRecDepth 100000 in
/-- C10 as amended applies to `info` on a reachable node: the command is forwarded, the
reply `OK` is printed and the status is 0. -/
theorem pass_through_witness :
    strncmp_eq "info".toList "change_channel".toList 14 = false ∧
    strncmp_eq "info".toList "set_video_mode".toList 14 = false ∧
    (send_command_get_response env_up world0 ip0 "info".toList [] BUF_SIZE).2
      = ("OK".toList, 0) ∧
    ∃ w1, main env_up world0 [ip0, "info".toList] [] = some (w1, 0) ∧
      sent_commands w1.trace = sent_commands world0.trace ++ ["info".toList] ∧
      ((send_command_get_response env_up world0 ip0 "info".toList [] BUF_SIZE).2.2 = 0 →
        w1.trace = (send_command_get_response env_up world0 ip0 "info".toList []
            BUF_SIZE).1.trace ++
          [Event.stdout ((send_command_get_response env_up world0 ip0 "info".toList []
            BUF_SIZE).2.1 ++ "\n".toList)]) :=
  ⟨by decide, by decide, by decide,
   pass_through env_up world0 ip0 "info".toList [] [] (by decide) (by decide)⟩

set_option maxRecDepth 100000 in
/-- C10 as stated fails: for `info` on a node that refuses every connection the send
returns -1 and the exit status is 0. -/
theorem pass_through_counterexample :
    strncmp_eq "info".toList "change_channel".toList 14 = false ∧
    strncmp_eq "info".toList "set_video_mode".toList 14 = false ∧
    (send_command_get_response env_down world0 ip0 "info".toList [] BUF_SIZE).2.2 = -1 ∧
    (main env_down world0 [ip0, "info".toList] []).map (fun r => r.2) = some 0 := by
  refine ⟨by decide, by decide, by decide, by decide⟩

end AlinkManGs
